import Mathlib

/-!
# Config subsets (`config/subset.c`)

A shallow embedding of NeoMutt's config subsets: the tree of `ConfigSubset`
nodes over a shared `ConfigSet`, the lazy creation of inherited items, the
accessors with their change notifications, and the teardown of a subset.

Conventions of the embedding.

* A C string is the list of its bytes before the terminating NUL, one `Char`
  for each byte; a `char *` that may be `NULL` is an `Option CStr`.
* A pointer to an immutable record is the record itself: a `HashElem` carries
  its type flags, its key and, through `Inheritance`, its parent item, and a
  `struct HashElem *` that may be `NULL` is an `Option HashElem`.  The type
  `ConfigSubset` is a `struct ConfigSubset *`: `NULL` or a subset, which
  carries its parent pointer.
* `ConfigSet`s live in the memory of a `World`, addressed by number, since many
  subsets point at one set and change it.  The `World` also records, in order,
  every call made to the config set (`calls`) and every `notify_send` (`sent`).
* The `err` buffers only carry messages back to the caller and are left out.
-/

namespace Subset

/-! ## Strings -/

/-- A C string: its bytes before the terminating NUL. -/
abbrev CStr := List Char

/-- The `Char`s of a string literal. -/
abbrev cstr (s : String) : CStr := s.toList

/-- The separator `":"` of the format strings. -/
abbrev colon : CStr := [':']

/-- What `%s` prints for its argument; a `NULL` argument prints `(null)` (glibc). -/
def fmt_s : Option CStr → CStr
  | some s => s
  | none => cstr "(null)"

/-- The call `snprintf(buf, size, ...)`: the formatted text `s` cut to `size - 1` bytes. -/
def snprintf (size : Nat) (s : CStr) : CStr :=
  s.take (size - 1)

/-- Modelled from the spec: `mutt_str_strfcpy` is defined in `mutt/string.c`,
which is not among the sources.  Spec §4.1: "if the composed string would exceed
the maximum buffer length, it is truncated to that length".  The call
`mutt_str_strfcpy(dest, src, dsize)` copies at most `dsize - 1` bytes of `src`. -/
def mutt_str_strfcpy (src : CStr) (dsize : Nat) : CStr :=
  src.take (dsize - 1)

/-- Modelled from the spec: `mutt_str_startswith` is defined in `mutt/string.c`,
which is not among the sources.  Spec §4.5: "for every item whose key starts
with that scope prefix".  The call `mutt_str_startswith(str, pfx, CASE_MATCH)`
gives the length of `pfx` when `str` starts with it, else 0; nothing starts
with, or is started by, an empty string. -/
def mutt_str_startswith (str pfx : CStr) : Nat :=
  if str = [] ∨ pfx = [] then 0
  else if pfx.isPrefixOf str then pfx.length else 0

/-- The constant `INT_MIN` of `<limits.h>` for a 32-bit `int`. -/
def INT_MIN : Int := -2147483648

/-! ## Data model -/

/-- The record `struct HashElem`: the type flags, `key.strkey`, and for an inherited item
the `parent` of the `struct Inheritance` that `data` points to (`none` when
`data` holds no `Inheritance`). -/
inductive HashElem where
  | mk (type : Nat) (key : CStr) (parent : Option HashElem)

/-- The field `he->type`. -/
def HashElem.type : HashElem → Nat
  | .mk t _ _ => t

/-- The field `he->key.strkey`. -/
def HashElem.key : HashElem → CStr
  | .mk _ k _ => k

/-- The field `((struct Inheritance *) he->data)->parent`. -/
def HashElem.parent : HashElem → Option HashElem
  | .mk _ _ p => p

/-- Equality of items is decidable. -/
def HashElem.decEq : (a b : HashElem) → Decidable (a = b)
  | .mk t k none, .mk t2 k2 none =>
    if h : t = t2 ∧ k = k2 then isTrue (by rw [h.1, h.2])
    else isFalse (by intro e; cases e; exact h ⟨rfl, rfl⟩)
  | .mk _ _ none, .mk _ _ (some _) => isFalse (by intro e; cases e)
  | .mk _ _ (some _), .mk _ _ none => isFalse (by intro e; cases e)
  | .mk t k (some p), .mk t2 k2 (some q) =>
    if h : t = t2 ∧ k = k2 then
      match HashElem.decEq p q with
      | isTrue h3 => isTrue (by rw [h.1, h.2, h3])
      | isFalse h3 => isFalse (by intro e; cases e; exact h3 rfl)
    else isFalse (by intro e; cases e; exact h ⟨rfl, rfl⟩)

instance : DecidableEq HashElem := HashElem.decEq

/-- Address of a `struct ConfigSet`. -/
abbrev CsPtr := Nat

/-- Address of a `struct Notify`. -/
abbrev NotifyPtr := Nat

/-- The value slots of a config set: the native value held for a key. -/
abbrev Vars := List (CStr × Int)

/-- Modelled from the spec: `struct ConfigSet` is declared in `config/set.h`,
which is not among the sources.  Spec §3: the Item Store is a "mapping from
qualified-name (string) to item record", each item with "a value slot, a set
of type flags including an inherited flag, and, if inherited, a link to its
parent item".  `hash` lists the items in the order they were registered,
`vars` holds the value slots. -/
structure ConfigSet where
  hash : List HashElem
  vars : Vars
deriving DecidableEq

/-- A pointer `struct ConfigSubset *`: `NULL`, or the subset it points to with
its fields `name` (the scope), `notify`, `parent` and `cs`. -/
inductive ConfigSubset where
  | null
  | mk (name : Option CStr) (notify : NotifyPtr) (parent : ConfigSubset) (cs : Option CsPtr)
deriving DecidableEq

/-- The field `sub->name` (nothing for `NULL`). -/
def ConfigSubset.name : ConfigSubset → Option CStr
  | .mk n _ _ _ => n
  | .null => none

/-- The field `sub->notify` of a subset. -/
def ConfigSubset.notify : ConfigSubset → Option NotifyPtr
  | .mk _ n _ _ => some n
  | .null => none

/-- The field `sub->parent` (`NULL` for `NULL`). -/
def ConfigSubset.parent : ConfigSubset → ConfigSubset
  | .mk _ _ p _ => p
  | .null => .null

/-- The field `sub->cs` (`NULL` for `NULL`). -/
def ConfigSubset.cs : ConfigSubset → Option CsPtr
  | .mk _ _ _ c => c
  | .null => none

/-- The record `struct EventConfig`: `{ sub, name, he }`. -/
structure EventConfig where
  sub : ConfigSubset
  name : CStr
  he : HashElem
deriving DecidableEq

/-- One call `notify_send(notify, event_type, event_subtype, &ec)`. -/
structure NotifySend where
  notify : NotifyPtr
  event_type : Nat
  event_subtype : Nat
  ec : EventConfig
deriving DecidableEq

/-- One call to the config set, with its arguments. -/
inductive StoreCall where
  | get_elem (cs : Option CsPtr) (key : CStr)
  | inherit_variable (cs : Option CsPtr) (parent : Option HashElem) (name : CStr)
  | uninherit_variable (cs : Option CsPtr) (name : CStr)
  | get_elem_list (cs : Option CsPtr)
  | he_native_get (cs : Option CsPtr) (he : HashElem)
  | he_native_set (cs : Option CsPtr) (he : HashElem) (value : Int)
  | he_reset (cs : Option CsPtr) (he : HashElem)
  | he_string_get (cs : Option CsPtr) (he : HashElem)
  | he_string_set (cs : Option CsPtr) (he : HashElem) (value : Option CStr)
deriving DecidableEq

/-- What the sources take from `config/lib.h` and `mutt/mutt.h` without
defining it: the flag and status constants, the notification kinds, and the
typed value operations behind `cs_he_native_get`, `cs_he_native_set`,
`cs_he_reset`, `cs_he_string_get` and `cs_he_string_set`.  A value operation
sees the config set (if any) and the item; a setter answers with a status and
the value slots it leaves. -/
structure Lib where
  DT_INHERITED : Nat
  CSR_ERR_CODE : Int
  CSR_SUC_NO_CHANGE : Int
  NT_CONFIG : Nat
  NT_CONFIG_SET : Nat
  he_native_get : Option ConfigSet → HashElem → Int
  he_native_set : Option ConfigSet → HashElem → Int → Int × Vars
  he_reset : Option ConfigSet → HashElem → Int × Vars
  he_string_get : Option ConfigSet → HashElem → Int × CStr
  he_string_set : Option ConfigSet → HashElem → Option CStr → Int × Vars

/-- The state the subset functions run in. -/
structure World where
  mem : CsPtr → ConfigSet
  calls : List StoreCall
  sent : List NotifySend
  notifiers : List (NotifyPtr × Option NotifyPtr)

/-- The world after one more call to the config set. -/
def World.log (w : World) (c : StoreCall) : World :=
  { w with calls := w.calls ++ [c] }

/-- The config set a pointer refers to, if the pointer is not `NULL`. -/
def World.deref (w : World) (cs : Option CsPtr) : Option ConfigSet :=
  cs.map w.mem

/-- The world with the config set at `cs` replaced (nothing for `NULL`). -/
def World.store (w : World) (cs : Option CsPtr) (s : ConfigSet) : World :=
  match cs with
  | some r => { w with mem := Function.update w.mem r s }
  | none => w

/-! ## The config set, as the subset functions use it -/

/-- Modelled from the spec: `cs_get_elem` is defined in `config/set.c`, which
is not among the sources.  Spec §6: "lookup_exact(qualified_name) -> item or
absent".  A `NULL` config set holds nothing. -/
def cs_get_elem (w : World) (cs : Option CsPtr) (key : CStr) : Option HashElem × World :=
  (match w.deref cs with
   | some s => s.hash.find? (fun e => e.key = key)
   | none => none,
   w.log (.get_elem cs key))

/-- Modelled from the spec: `cs_inherit_variable` is defined in
`config/set.c`, which is not among the sources.  Spec §4.3: "create a new
inherited copy of the parent's item, registered at this subset's qualified
name, linked to the parent item.  Return the new item."  The store maps a name
to one item (§3), so a name that is already registered is not registered
again; then, and without a config set or a parent item, nothing is created and
the answer is absent. -/
def cs_inherit_variable (L : Lib) (w : World) (cs : Option CsPtr) (parent : Option HashElem)
    (name : CStr) : Option HashElem × World :=
  let w1 := w.log (.inherit_variable cs parent name)
  match w.deref cs, parent with
  | some s, some p =>
    if s.hash.any (fun e => e.key = name) then (none, w1)
    else
      let he := HashElem.mk L.DT_INHERITED name (some p)
      (some he, w1.store cs { s with hash := s.hash ++ [he] })
  | _, _ => (none, w1)

/-- Modelled from the spec: `cs_uninherit_variable` is defined in
`config/set.c`, which is not among the sources.  Spec §6:
"remove_inherited(qualified_name) -> void"; §8: destroying a subset "removes"
its items "from the store".  The item registered at `name` is dropped. -/
def cs_uninherit_variable (w : World) (cs : Option CsPtr) (name : CStr) : World :=
  let w1 := w.log (.uninherit_variable cs name)
  match w.deref cs with
  | some s => w1.store cs { s with hash := s.hash.filter (fun e => e.key ≠ name) }
  | none => w1

/-- Modelled from the spec: `get_elem_list` is defined in `config/dump.c`,
which is not among the sources.  Spec §4.5: "Enumerate a snapshot of all items
currently in the Item Store".  A `NULL` config set has no items. -/
def get_elem_list (w : World) (cs : Option CsPtr) : List HashElem × World :=
  (match w.deref cs with
   | some s => s.hash
   | none => [],
   w.log (.get_elem_list cs))

/-- The call `cs_he_native_get(cs, he, err)`, answered by `L.he_native_get`. -/
def cs_he_native_get (L : Lib) (w : World) (cs : Option CsPtr) (he : HashElem) : Int × World :=
  (L.he_native_get (w.deref cs) he, w.log (.he_native_get cs he))

/-- The world after a setter left the value slots `vars` in the set at `cs`. -/
def World.set_vars (w : World) (cs : Option CsPtr) (vars : Vars) : World :=
  match w.deref cs with
  | some s => w.store cs { s with vars := vars }
  | none => w

/-- The call `cs_he_native_set(cs, he, value, err)`, answered by
`L.he_native_set`: the status, and the world with the value slots it leaves. -/
def cs_he_native_set (L : Lib) (w : World) (cs : Option CsPtr) (he : HashElem) (value : Int) :
    Int × World :=
  let r := L.he_native_set (w.deref cs) he value
  (r.1, (w.log (.he_native_set cs he value)).set_vars cs r.2)

/-- The call `cs_he_reset(cs, he, err)`, answered by `L.he_reset`. -/
def cs_he_reset (L : Lib) (w : World) (cs : Option CsPtr) (he : HashElem) : Int × World :=
  let r := L.he_reset (w.deref cs) he
  (r.1, (w.log (.he_reset cs he)).set_vars cs r.2)

/-- The call `cs_he_string_get(cs, he, result)`, answered by `L.he_string_get`:
the status and the text put into `result`. -/
def cs_he_string_get (L : Lib) (w : World) (cs : Option CsPtr) (he : HashElem) :
    (Int × CStr) × World :=
  (L.he_string_get (w.deref cs) he, w.log (.he_string_get cs he))

/-- The call `cs_he_string_set(cs, he, value, err)`, answered by
`L.he_string_set`. -/
def cs_he_string_set (L : Lib) (w : World) (cs : Option CsPtr) (he : HashElem)
    (value : Option CStr) : Int × World :=
  let r := L.he_string_set (w.deref cs) he value
  (r.1, (w.log (.he_string_set cs he value)).set_vars cs r.2)

/-! ## Notifications -/

/-- Modelled from the spec: `notify_new` is defined in `mutt/notify.c`, which is
not among the sources.  Spec §6: "create(parent_channel) -> channel".  The new
notifier gets an address not in use and no parent yet. -/
def notify_new (w : World) : NotifyPtr × World :=
  let n := (w.notifiers.map Prod.fst).foldr max 0 + 1
  (n, { w with notifiers := w.notifiers ++ [(n, none)] })

/-- Modelled from the spec: `notify_set_parent` is defined in `mutt/notify.c`,
which is not among the sources.  Spec §3: the notifier's "own parent channel is
supplied explicitly by the caller at construction time". -/
def notify_set_parent (w : World) (notify : NotifyPtr) (parent : Option NotifyPtr) : World :=
  { w with notifiers := w.notifiers.map (fun c => if c.1 = notify then (c.1, parent) else c) }

/-- Modelled from the spec: `notify_free` is defined in `mutt/notify.c`, which
is not among the sources.  Spec §6: "free(channel)". -/
def notify_free (w : World) (notify : NotifyPtr) : World :=
  { w with notifiers := w.notifiers.filter (fun c => c.1 ≠ notify) }

/-- Modelled from the spec: `notify_send` is defined in `mutt/notify.c`, which
is not among the sources.  Spec §6: "send(channel, event_kind, payload)".  The
call is recorded with its channel, kind and payload. -/
def notify_send (w : World) (notify : NotifyPtr) (event_type event_subtype : Nat)
    (ec : EventConfig) : World :=
  { w with sent := w.sent ++ [⟨notify, event_type, event_subtype, ec⟩] }

/-! ## The functions of `config/subset.c` -/

/-- Find the root config item: `get_base`.  `none` stands for the `NULL`
dereference of an item flagged inherited whose `data` names no parent. -/
def get_base (L : Lib) : HashElem → Option HashElem
  | .mk type key parent =>
    if type &&& L.DT_INHERITED = 0 then some (.mk type key parent)
    else
      match parent with
      | some p => get_base L p
      | none => none

/-- Free a config subset: `cs_subset_free`.  Releasing the memory of the name
and of the node has no effect on the world. -/
def cs_subset_free (w : World) (ptr : ConfigSubset) : World :=
  match ptr with
  | .null => w
  | .mk sname notify parent cs =>
    let w1 :=
      match sname with
      | some name =>
        let scope :=
          match parent with
          | .mk (some pname) _ _ _ => snprintf 256 (pname ++ colon ++ name ++ colon)
          | _ => snprintf 256 (name ++ colon)
        let list := get_elem_list w cs
        list.1.foldl
          (fun w he =>
            if mutt_str_startswith he.key scope ≠ 0 then cs_uninherit_variable w cs he.key
            else w)
          list.2
      | none => w
    notify_free w1 notify

/-- Create a new config subset: `cs_subset_new`. -/
def cs_subset_new (w : World) (name : Option CStr) (sub_parent : ConfigSubset)
    (not_parent : Option NotifyPtr) : ConfigSubset × World :=
  let cs :=
    match sub_parent with
    | .mk _ _ _ pcs => pcs
    | .null => none
  let sname :=
    match name with
    | some name =>
      match sub_parent with
      | .mk (some pname) _ _ _ => some (snprintf 256 (pname ++ colon ++ name))
      | _ => some (mutt_str_strfcpy name 256)
    | none => none
  let n := notify_new w
  (.mk sname n.1 sub_parent cs, notify_set_parent n.2 n.1 not_parent)

/-- Find an inherited config item: `cs_subset_lookup`. -/
def cs_subset_lookup (w : World) (sub : ConfigSubset) (name : Option CStr) :
    Option HashElem × World :=
  match sub, name with
  | .mk sname _ _ cs, some name =>
    let scope :=
      match sname with
      | some sname => snprintf 256 (sname ++ colon ++ name)
      | none => mutt_str_strfcpy name 256
    cs_get_elem w cs scope
  | _, _ => (none, w)

/-- Natively get the value of an inherited config item: `cs_subset_native_get`. -/
def cs_subset_native_get (L : Lib) (w : World) (sub : ConfigSubset)
    (he : Option HashElem) : Int × World :=
  match sub, he with
  | .mk _ _ _ cs, some he => cs_he_native_get L w cs he
  | _, _ => (INT_MIN, w)

/-- Natively set the value of an inherited config item: `cs_subset_native_set`.
`none` stands for a run that does not return (`get_base` dereferences `NULL`). -/
def cs_subset_native_set (L : Lib) (w : World) (sub : ConfigSubset)
    (he : Option HashElem) (value : Int) : Option (Int × World) :=
  match sub, he with
  | .mk sname notify parent cs, some he =>
    let rc := cs_he_native_set L w cs he value
    if Int.land rc.1 L.CSR_SUC_NO_CHANGE = 0 then
      match get_base L he with
      | some he_base =>
        some (rc.1, notify_send rc.2 notify L.NT_CONFIG L.NT_CONFIG_SET
          ⟨.mk sname notify parent cs, he_base.key, he⟩)
      | none => none
    else some rc
  | _, _ => some (L.CSR_ERR_CODE, w)

/-- Reset an inherited config item to its parent value: `cs_subset_reset`. -/
def cs_subset_reset (L : Lib) (w : World) (sub : ConfigSubset) (he : Option HashElem) :
    Int × World :=
  match sub, he with
  | .mk _ _ _ cs, some he => cs_he_reset L w cs he
  | _, _ => (L.CSR_ERR_CODE, w)

/-- Get an inherited config item as a string: `cs_subset_string_get`; the
second component is the `result` buffer afterwards. -/
def cs_subset_string_get (L : Lib) (w : World) (sub : ConfigSubset)
    (he : Option HashElem) (result : CStr) : (Int × CStr) × World :=
  match sub, he with
  | .mk _ _ _ cs, some he => cs_he_string_get L w cs he
  | _, _ => ((L.CSR_ERR_CODE, result), w)

/-- Set an inherited config item by string: `cs_subset_string_set`. -/
def cs_subset_string_set (L : Lib) (w : World) (sub : ConfigSubset)
    (he : Option HashElem) (value : Option CStr) : Int × World :=
  match sub, he with
  | .mk _ _ _ cs, some he => cs_he_string_set L w cs he value
  | _, _ => (INT_MIN, w)

/-- Create an inherited config item: `cs_subset_create_var`. -/
def cs_subset_create_var (L : Lib) (w : World) :
    ConfigSubset → Option CStr → Option HashElem × World
  | .mk sname notify parent cs, some name =>
    match cs_subset_lookup w (.mk sname notify parent cs) (some name) with
    | (some he, w1) => (some he, w1)
    | (none, w1) =>
      match cs_subset_create_var L w1 parent (some name) with
      | (none, w2) => (none, w2)
      | (some he, w2) =>
        let scope := snprintf 256 (fmt_s sname ++ colon ++ name)
        cs_inherit_variable L w2 cs (some he) scope
  | _, _ => (none, w)

/-- The by-name getter `cs_subset_native_get2`. -/
def cs_subset_native_get2 (L : Lib) (w : World) :
    ConfigSubset → Option CStr → Int × World
  | .mk sname notify parent cs, some name =>
    match cs_subset_lookup w (.mk sname notify parent cs) (some name) with
    | (some he, w1) => cs_subset_native_get L w1 (.mk sname notify parent cs) (some he)
    | (none, w1) => cs_subset_native_get2 L w1 parent (some name)
  | _, _ => (INT_MIN, w)

/-- The helper `create_inheritance` of `cs_subset_native_set2`. -/
def create_inheritance (L : Lib) (w : World) :
    ConfigSubset → Option CStr → Option HashElem × World
  | .mk sname notify parent cs, some name =>
    match cs_subset_lookup w (.mk sname notify parent cs) (some name) with
    | (some he, w1) => (some he, w1)
    | (none, w1) =>
      let he := create_inheritance L w1 parent (some name)
      let scope := snprintf 256 (fmt_s sname ++ colon ++ name)
      cs_inherit_variable L he.2 cs he.1 scope
  | _, _ => (none, w)

/-- The by-name setter `cs_subset_native_set2`.  `none` stands for a run that
does not return (`get_base` dereferences `NULL`). -/
def cs_subset_native_set2 (L : Lib) (w : World) (sub : ConfigSubset)
    (name : Option CStr) (value : Int) : Option (Int × World) :=
  match sub, name with
  | .mk sname notify parent cs, some name =>
    match create_inheritance L w (.mk sname notify parent cs) (some name) with
    | (none, w1) => some (L.CSR_ERR_CODE, w1)
    | (some he, w1) =>
      let rc := cs_he_native_set L w1 cs he value
      if Int.land rc.1 L.CSR_SUC_NO_CHANGE = 0 then
        match get_base L he with
        | some he_base =>
          some (rc.1, notify_send rc.2 notify L.NT_CONFIG L.NT_CONFIG_SET
            ⟨.mk sname notify parent cs, he_base.key, he⟩)
        | none => none
      else some rc
  | _, _ => some (L.CSR_ERR_CODE, w)

/-! ## A running example -/

/-- Sample constants and value operations: a native set stores the value at
the item's key and reports no change (status 128) when the slot already holds it. -/
def demoLib : Lib where
  DT_INHERITED := 64
  CSR_ERR_CODE := 1
  CSR_SUC_NO_CHANGE := 128
  NT_CONFIG := 3
  NT_CONFIG_SET := 1
  he_native_get := fun cs he =>
    match cs with
    | some s => ((s.vars.find? (fun p => p.1 = he.key)).map Prod.snd).getD 0
    | none => INT_MIN
  he_native_set := fun cs he v =>
    match cs with
    | some s =>
      if (s.vars.find? (fun p => p.1 = he.key)).map Prod.snd = some v then (128, s.vars)
      else (0, (he.key, v) :: s.vars.filter (fun p => p.1 ≠ he.key))
    | none => (1, [])
  he_reset := fun cs he =>
    match cs with
    | some s => (0, s.vars.filter (fun p => p.1 ≠ he.key))
    | none => (1, [])
  he_string_get := fun _ he => (0, he.key)
  he_string_set := fun cs he value =>
    match cs with
    | some s => (0, (he.key, ((value.map List.length).getD 0 : Nat)) :: s.vars)
    | none => (1, [])

/-- The root item `timeout`. -/
def he_timeout : HashElem := .mk 0 (cstr "timeout") none

/-- A world with one config set, at address 0, holding `timeout` = 30, and the
notifier of the root subset, at address 1. -/
def demoWorld0 : World where
  mem := fun _ => ⟨[he_timeout], [(cstr "timeout", 30)]⟩
  calls := []
  sent := []
  notifiers := [(1, none)]

/-- The unnamed root subset over the config set at address 0. -/
def demoRoot : ConfigSubset := .mk none 1 .null (some 0)

/-- The subset `acct1` below the root. -/
def demoAcct : ConfigSubset :=
  (cs_subset_new demoWorld0 (some (cstr "acct1")) demoRoot (some 1)).1

/-- The world once `acct1` is made. -/
def demoWorld1 : World :=
  (cs_subset_new demoWorld0 (some (cstr "acct1")) demoRoot (some 1)).2

/-- The subset `acct1:inbox` below `acct1`. -/
def demoInbox : ConfigSubset :=
  (cs_subset_new demoWorld1 (some (cstr "inbox")) demoAcct (some 2)).1

/-- The sample world: the root, `acct1` and `acct1:inbox` are made, `timeout`
is held by the root only. -/
def demoWorld : World :=
  (cs_subset_new demoWorld1 (some (cstr "inbox")) demoAcct (some 2)).2

/-- The sample world after `timeout` was created at `acct1:inbox`. -/
def demoWorldInbox : World :=
  (cs_subset_create_var demoLib demoWorld demoInbox (some (cstr "timeout"))).2

/-- A second subset named `acct1`, below `acct1`: its scope is `acct1:acct1`. -/
def demoTwin : ConfigSubset :=
  (cs_subset_new demoWorld (some (cstr "acct1")) demoAcct (some 2)).1

/-- The world once `acct1:acct1` is made. -/
def demoWorld2 : World :=
  (cs_subset_new demoWorld (some (cstr "acct1")) demoAcct (some 2)).2

/-- The subset `inbox` below `acct1:acct1`: its scope is `acct1:acct1:inbox`. -/
def demoTwinInbox : ConfigSubset :=
  (cs_subset_new demoWorld2 (some (cstr "inbox")) demoTwin (some 4)).1

/-- The sample world after `acct1:acct1` and `acct1:acct1:inbox` were made and
`timeout` was created at `acct1:acct1:inbox`. -/
def demoWorldTwin : World :=
  (cs_subset_create_var demoLib
    (cs_subset_new demoWorld2 (some (cstr "inbox")) demoTwin (some 4)).2
    demoTwinInbox (some (cstr "timeout"))).2

/-- A name of 255 bytes, the most a scope buffer holds. -/
def longName : CStr := List.replicate 255 'a'

/-- A world with one config set, at address 0, holding the root item `x`, and
the notifier of the root subset. -/
def longWorld0 : World where
  mem := fun _ => ⟨[.mk 0 (cstr "x") none], []⟩
  calls := []
  sent := []
  notifiers := [(1, none)]

/-- The subset with the 255-byte name below the unnamed root. -/
def longA : ConfigSubset := (cs_subset_new longWorld0 (some longName) demoRoot (some 1)).1

/-- The world once `longA` is made. -/
def longWorld1 : World := (cs_subset_new longWorld0 (some longName) demoRoot (some 1)).2

/-- The subset `b` below `longA`; its scope is cut to the scope of `longA`. -/
def longB : ConfigSubset := (cs_subset_new longWorld1 (some (cstr "b")) longA (some 2)).1

/-- The world once `longA` and `b` are made. -/
def longWorld : World := (cs_subset_new longWorld1 (some (cstr "b")) longA (some 2)).2

/-- An item name of 300 bytes, more than a scope buffer holds. -/
def longItem : CStr := List.replicate 300 'a'

/-- The root item whose key is the 255-byte name. -/
def he_long : HashElem := .mk 0 longName none

/-- A world with one config set, at address 0, holding the root item with the
255-byte key, with the value 30, and the notifier of the root subset. -/
def cutWorld0 : World where
  mem := fun _ => ⟨[he_long], [(longName, 30)]⟩
  calls := []
  sent := []
  notifiers := [(1, none)]

/-- The subset `acct1` below the unnamed root, over `cutWorld0`. -/
def cutAcct : ConfigSubset :=
  (cs_subset_new cutWorld0 (some (cstr "acct1")) demoRoot (some 1)).1

/-- The world `cutWorld0` once `acct1` is made. -/
def cutWorldAcct : World :=
  (cs_subset_new cutWorld0 (some (cstr "acct1")) demoRoot (some 1)).2

/-- The `i`-th subset on the parent chain of `sub`: `sub` itself for 0, then
`sub->parent`, and so on; `NULL` past the root. -/
def anc : Nat → ConfigSubset → ConfigSubset
  | 0, sub => sub
  | i + 1, sub => anc i sub.parent

/-- The item registered at `key` in the config set at `cs`, if any. -/
def World.item_at (w : World) (cs : Option CsPtr) (key : CStr) : Option HashElem :=
  (cs_get_elem w cs key).1

/-- The keys registered in the config set at `cs`, in order. -/
def World.keys (w : World) (cs : Option CsPtr) : List CStr :=
  (get_elem_list w cs).1.map HashElem.key

/-- The item `b` ends the chain of inheritance-parent links that starts at
`he`: `b` is not flagged inherited, and every item before it on the chain is
flagged and links to the next. -/
inductive BaseOf (L : Lib) : HashElem → HashElem → Prop where
  | here (he : HashElem) (h : he.type &&& L.DT_INHERITED = 0) : BaseOf L he he
  | step (he p b : HashElem) (h : he.type &&& L.DT_INHERITED ≠ 0) (hp : he.parent = some p)
      (hb : BaseOf L p b) : BaseOf L he b

/-- A subset as the program makes them: every subset below a root is what
`cs_subset_new` returns for its parent (so it shares the parent's config set and
its scope is composed from the parent's). -/
def ConfigSubset.built : ConfigSubset → Prop
  | .null => True
  | .mk sname notify parent cs =>
    parent.built ∧
      (parent = .null ∨ ∃ w name not_parent,
        (cs_subset_new w name parent not_parent).1 = .mk sname notify parent cs)

/-- Every item of every config set has a base: its chain of inheritance-parent
links ends at an item that is not flagged inherited. -/
def World.items_based (L : Lib) (w : World) : Prop :=
  ∀ c e, e ∈ (w.mem c).hash → (get_base L e).isSome

/-- The key `cs_subset_lookup` asks the config set for, for a subset with the
scope `sname`. -/
def lookup_scope (sname : Option CStr) (X : CStr) : CStr :=
  match sname with
  | some n => snprintf 256 (n ++ colon ++ X)
  | none => mutt_str_strfcpy X 256

/-- The item `q` lies on the chain of inheritance-parent links of `he`: it is
`he` itself, or `he` is flagged inherited and `q` lies on the chain of the
parent of `he`. -/
inductive OnChain (L : Lib) : HashElem → HashElem → Prop where
  | self (he : HashElem) : OnChain L he he
  | up (he p q : HashElem) (h : he.type &&& L.DT_INHERITED ≠ 0) (hp : he.parent = some p)
      (hq : OnChain L p q) : OnChain L he q

/-- A call that only looks an item up: `cs_get_elem`. -/
def StoreCall.is_get_elem : StoreCall → Bool
  | .get_elem _ _ => true
  | _ => false

/-- A call that asks the config set to create an inherited item:
`cs_inherit_variable`. -/
def StoreCall.is_inherit : StoreCall → Bool
  | .inherit_variable _ _ _ => true
  | _ => false

/-! ## Basic facts about the world and the config set -/

@[simp] theorem log_mem (w : World) (c : StoreCall) : (w.log c).mem = w.mem := rfl

@[simp] theorem log_sent (w : World) (c : StoreCall) : (w.log c).sent = w.sent := rfl

@[simp] theorem log_calls (w : World) (c : StoreCall) : (w.log c).calls = w.calls ++ [c] := rfl

@[simp] theorem store_sent (w : World) (cs : Option CsPtr) (s : ConfigSet) :
    (w.store cs s).sent = w.sent := by
  cases cs <;> rfl

@[simp] theorem store_calls (w : World) (cs : Option CsPtr) (s : ConfigSet) :
    (w.store cs s).calls = w.calls := by
  cases cs <;> rfl

@[simp] theorem set_vars_sent (w : World) (cs : Option CsPtr) (v : Vars) :
    (w.set_vars cs v).sent = w.sent := by
  unfold World.set_vars
  cases w.deref cs <;> simp

@[simp] theorem set_vars_calls (w : World) (cs : Option CsPtr) (v : Vars) :
    (w.set_vars cs v).calls = w.calls := by
  unfold World.set_vars
  cases w.deref cs <;> simp

@[simp] theorem cs_get_elem_snd (w : World) (cs : Option CsPtr) (key : CStr) :
    (cs_get_elem w cs key).2 = w.log (.get_elem cs key) := rfl

@[simp] theorem cs_subset_lookup_mem (w : World) (sub : ConfigSubset) (name : Option CStr) :
    (cs_subset_lookup w sub name).2.mem = w.mem := by
  unfold cs_subset_lookup
  cases sub <;> cases name <;> simp

@[simp] theorem cs_subset_lookup_sent (w : World) (sub : ConfigSubset) (name : Option CStr) :
    (cs_subset_lookup w sub name).2.sent = w.sent := by
  unfold cs_subset_lookup
  cases sub <;> cases name <;> simp

/-- What `cs_subset_lookup` finds depends on the config sets only. -/
theorem cs_subset_lookup_congr (w1 w2 : World) (h : w1.mem = w2.mem) (sub : ConfigSubset)
    (name : Option CStr) : (cs_subset_lookup w1 sub name).1 = (cs_subset_lookup w2 sub name).1 := by
  unfold cs_subset_lookup cs_get_elem World.deref
  cases sub <;> cases name <;> simp [h]

/-! ## Null arguments (C10) -/

/-- C10: an accessor called with a `NULL` subset, or with a `NULL` name or
item, returns with the world exactly as it found it: no call to the config set
is made, no notification is sent, and every config set is as before. -/
theorem null_arguments_leave_world (L : Lib) (w : World) (value : Int) (sval : Option CStr)
    (result : CStr) :
    (∀ sub name, sub = ConfigSubset.null ∨ name = none →
      (cs_subset_lookup w sub name).2 = w ∧
      (cs_subset_create_var L w sub name).2 = w ∧
      (cs_subset_native_get2 L w sub name).2 = w ∧
      (cs_subset_native_set2 L w sub name value).map Prod.snd = some w) ∧
    (∀ sub he, sub = ConfigSubset.null ∨ he = none →
      (cs_subset_native_get L w sub he).2 = w ∧
      (cs_subset_native_set L w sub he value).map Prod.snd = some w ∧
      (cs_subset_reset L w sub he).2 = w ∧
      (cs_subset_string_get L w sub he result).2 = w ∧
      (cs_subset_string_set L w sub he sval).2 = w) := by
  refine ⟨?_, ?_⟩
  · intro sub name h
    rcases h with h | h
    · subst h
      simp [cs_subset_lookup, cs_subset_create_var, cs_subset_native_get2, cs_subset_native_set2]
    · subst h
      cases sub <;>
        simp [cs_subset_lookup, cs_subset_create_var, cs_subset_native_get2,
          cs_subset_native_set2]
  · intro sub he h
    rcases h with h | h
    · subst h
      simp [cs_subset_native_get, cs_subset_native_set, cs_subset_reset, cs_subset_string_get,
        cs_subset_string_set]
    · subst h
      cases sub <;>
        simp [cs_subset_native_get, cs_subset_native_set, cs_subset_reset, cs_subset_string_get,
          cs_subset_string_set]

/-- C10 at the sample world: a `NULL` subset with a name, and a subset with a
`NULL` item. -/
theorem null_arguments_leave_world_demo :
    (cs_subset_create_var demoLib demoWorld .null (some (cstr "timeout"))).2 = demoWorld ∧
    (cs_subset_native_set demoLib demoWorld demoAcct none 60).map Prod.snd = some demoWorld :=
  ⟨((null_arguments_leave_world demoLib demoWorld 60 none []).1 .null (some (cstr "timeout"))
      (Or.inl rfl)).2.1,
   ((null_arguments_leave_world demoLib demoWorld 60 none []).2 demoAcct none (Or.inr rfl)).2.1⟩

/-! ## Scope of a new subset (C8) -/

/-- C8: the subset `cs_subset_new(name, sub_parent, not_parent)` returns has
the scope `sub_parent->name + ":" + name` when the parent has a name, `name`
when the parent is `NULL` or unnamed, and no scope when `name` is `NULL` (the
composed text fitting in 255 bytes); its parent is `sub_parent` and its config
set is the parent's. -/
theorem cs_subset_new_fields (w : World) (name : Option CStr) (sub_parent : ConfigSubset)
    (not_parent : Option NotifyPtr) :
    (∀ pname n, sub_parent.name = some pname → name = some n →
      (pname ++ colon ++ n).length ≤ 255 →
      (cs_subset_new w name sub_parent not_parent).1.name = some (pname ++ colon ++ n)) ∧
    (∀ n, sub_parent.name = none → name = some n → n.length ≤ 255 →
      (cs_subset_new w name sub_parent not_parent).1.name = some n) ∧
    (name = none → (cs_subset_new w name sub_parent not_parent).1.name = none) ∧
    (cs_subset_new w name sub_parent not_parent).1.parent = sub_parent ∧
    (cs_subset_new w name sub_parent not_parent).1.cs = sub_parent.cs := by
  refine ⟨?_, ?_, ?_, ?_, ?_⟩
  · intro pname n hp hn hlen
    subst hn
    cases sub_parent with
    | null => simp [ConfigSubset.name] at hp
    | mk pn pnotify pp pcs =>
      simp only [ConfigSubset.name] at hp
      subst hp
      simp only [cs_subset_new, ConfigSubset.name, snprintf]
      rw [List.take_of_length_le (by simpa using hlen)]
  · intro n hp hn hlen
    subst hn
    cases sub_parent with
    | null =>
      simp only [cs_subset_new, ConfigSubset.name, mutt_str_strfcpy]
      rw [List.take_of_length_le (by simpa using hlen)]
    | mk pn pnotify pp pcs =>
      simp only [ConfigSubset.name] at hp
      subst hp
      simp only [cs_subset_new, ConfigSubset.name, mutt_str_strfcpy]
      rw [List.take_of_length_le (by simpa using hlen)]
  · intro hn
    subst hn
    simp [cs_subset_new, ConfigSubset.name]
  · simp [cs_subset_new, ConfigSubset.parent]
  · cases sub_parent <;> simp [cs_subset_new, ConfigSubset.cs]

/-- C8 at the sample world: `inbox` below `acct1` gets the scope `acct1:inbox`. -/
theorem cs_subset_new_fields_demo :
    (cs_subset_new demoWorld1 (some (cstr "inbox")) demoAcct (some 2)).1.name
      = some (cstr "acct1" ++ colon ++ cstr "inbox") :=
  (cs_subset_new_fields demoWorld1 (some (cstr "inbox")) demoAcct (some 2)).1
    (cstr "acct1") (cstr "inbox") (by decide) rfl (by decide)

/-! ## Reading by name (C5) -/

theorem anc_null (i : Nat) : anc i .null = .null := by
  induction i with
  | zero => rfl
  | succ i ih => simpa [anc, ConfigSubset.parent] using ih

theorem deref_congr (w1 w2 : World) (h : w1.mem = w2.mem) (cs : Option CsPtr) :
    w1.deref cs = w2.deref cs := by
  simp [World.deref, h]

theorem cs_subset_native_get2_mk (L : Lib) (w : World) (sname : Option CStr) (notify : NotifyPtr)
    (parent : ConfigSubset) (cs : Option CsPtr) (X : CStr) :
    cs_subset_native_get2 L w (.mk sname notify parent cs) (some X) =
      match (cs_subset_lookup w (.mk sname notify parent cs) (some X)).1 with
      | some he => cs_he_native_get L (cs_subset_lookup w (.mk sname notify parent cs) (some X)).2 cs he
      | none => cs_subset_native_get2 L (cs_subset_lookup w (.mk sname notify parent cs) (some X)).2
          parent (some X) := by
  rw [cs_subset_native_get2]
  rcases h : cs_subset_lookup w (.mk sname notify parent cs) (some X) with ⟨_ | he, w1⟩
  · simp
  · simp [cs_subset_native_get]

theorem native_get2_chain (L : Lib) (X : CStr) : ∀ (sub : ConfigSubset) (w : World),
    (cs_subset_native_get2 L w sub (some X)).2.mem = w.mem ∧
    ((∀ i, (cs_subset_lookup w (anc i sub) (some X)).1 = none) →
      (cs_subset_native_get2 L w sub (some X)).1 = INT_MIN) ∧
    (∀ k he, (∀ i, i < k → (cs_subset_lookup w (anc i sub) (some X)).1 = none) →
      (cs_subset_lookup w (anc k sub) (some X)).1 = some he →
      (cs_subset_native_get2 L w sub (some X)).1 = L.he_native_get (w.deref (anc k sub).cs) he) := by
  intro sub
  induction sub with
  | null =>
    intro w
    refine ⟨by simp [cs_subset_native_get2], fun _ => by simp [cs_subset_native_get2], ?_⟩
    intro k he _ hk
    rw [anc_null] at hk
    simp [cs_subset_lookup] at hk
  | mk sname notify parent cs ih =>
    intro w
    have hmem := cs_subset_lookup_mem w (.mk sname notify parent cs) (some X)
    rw [cs_subset_native_get2_mk]
    cases h0 : (cs_subset_lookup w (.mk sname notify parent cs) (some X)).1 with
    | some he0 =>
      refine ⟨by simp [cs_he_native_get], ?_, ?_⟩
      · intro hall
        have := hall 0
        simp only [anc] at this
        rw [h0] at this
        cases this
      · intro k he hlt hk
        cases k with
        | zero =>
          simp only [anc] at hk
          rw [h0] at hk
          cases hk
          simp only [cs_he_native_get, anc, ConfigSubset.cs]
          rw [deref_congr _ _ hmem]
        | succ k =>
          have := hlt 0 (Nat.succ_pos k)
          simp only [anc] at this
          rw [h0] at this
          cases this
    | none =>
      obtain ⟨ih1, ih2, ih3⟩ := ih (cs_subset_lookup w (.mk sname notify parent cs) (some X)).2
      refine ⟨by simpa [hmem] using ih1, ?_, ?_⟩
      · intro hall
        apply ih2
        intro i
        rw [cs_subset_lookup_congr _ w hmem]
        exact hall (i + 1)
      · intro k he hlt hk
        cases k with
        | zero =>
          simp only [anc] at hk
          rw [h0] at hk
          cases hk
        | succ k =>
          have := ih3 k he
            (fun i hi => by
              rw [cs_subset_lookup_congr _ w hmem]
              exact hlt (i + 1) (Nat.succ_lt_succ hi))
            (by
              rw [cs_subset_lookup_congr _ w hmem]
              exact hk)
          rw [this, deref_congr _ _ hmem]
          rfl

/-- C5: `cs_subset_native_get2(sub, name)` returns `INT_MIN` when no subset on
the parent chain of `sub` holds an item at its qualified key for `name`;
otherwise it returns the native value the config set gives for the item of the
nearest subset on the chain that holds one (so an item defined at the root
only is read from any depth below it).  In both cases every config set is left
as it was: nothing is created. -/
theorem native_get2_reads_nearest (L : Lib) (w : World) (sub : ConfigSubset) (X : CStr) :
    ((∀ i, (cs_subset_lookup w (anc i sub) (some X)).1 = none) →
      (cs_subset_native_get2 L w sub (some X)).1 = INT_MIN) ∧
    (∀ k he, (∀ i, i < k → (cs_subset_lookup w (anc i sub) (some X)).1 = none) →
      (cs_subset_lookup w (anc k sub) (some X)).1 = some he →
      (cs_subset_native_get2 L w sub (some X)).1 = L.he_native_get (w.deref (anc k sub).cs) he) ∧
    (cs_subset_native_get2 L w sub (some X)).2.mem = w.mem :=
  ⟨(native_get2_chain L X sub w).2.1, (native_get2_chain L X sub w).2.2,
    (native_get2_chain L X sub w).1⟩

/-- C5 at the sample world: `timeout` is defined at the root only and read
from `acct1:inbox`, two levels below; `nosuch` is defined nowhere. -/
theorem native_get2_reads_nearest_demo :
    (cs_subset_native_get2 demoLib demoWorld demoInbox (some (cstr "timeout"))).1
        = demoLib.he_native_get (demoWorld.deref (anc 2 demoInbox).cs) he_timeout ∧
    (cs_subset_native_get2 demoLib demoWorld demoInbox (some (cstr "nosuch"))).1 = INT_MIN :=
  ⟨(native_get2_reads_nearest demoLib demoWorld demoInbox (cstr "timeout")).2.1 2 he_timeout
      (by decide) (by decide),
   (native_get2_reads_nearest demoLib demoWorld demoInbox (cstr "nosuch")).1 (by
      intro i
      match i with
      | 0 => decide
      | 1 => decide
      | 2 => decide
      | i + 3 =>
        have h : anc (i + 3) demoInbox = .null := by
          show anc i .null = .null
          exact anc_null i
        rw [h]
        rfl)⟩

/-! ## Notifications of the setters (C3, C4) -/

@[simp] theorem cs_inherit_variable_sent (L : Lib) (w : World) (cs : Option CsPtr)
    (parent : Option HashElem) (name : CStr) :
    (cs_inherit_variable L w cs parent name).2.sent = w.sent := by
  unfold cs_inherit_variable
  cases hd : w.deref cs <;> cases parent <;> simp
  split <;> simp

@[simp] theorem cs_he_native_set_sent (L : Lib) (w : World) (cs : Option CsPtr) (he : HashElem)
    (value : Int) : (cs_he_native_set L w cs he value).2.sent = w.sent := by
  simp [cs_he_native_set]

theorem create_inheritance_mk (L : Lib) (w : World) (sname : Option CStr) (notify : NotifyPtr)
    (parent : ConfigSubset) (cs : Option CsPtr) (X : CStr) :
    create_inheritance L w (.mk sname notify parent cs) (some X) =
      match (cs_subset_lookup w (.mk sname notify parent cs) (some X)).1 with
      | some he => (some he, (cs_subset_lookup w (.mk sname notify parent cs) (some X)).2)
      | none =>
        cs_inherit_variable L
          (create_inheritance L (cs_subset_lookup w (.mk sname notify parent cs) (some X)).2
            parent (some X)).2 cs
          (create_inheritance L (cs_subset_lookup w (.mk sname notify parent cs) (some X)).2
            parent (some X)).1
          (snprintf 256 (fmt_s sname ++ colon ++ X)) := by
  rw [create_inheritance]
  rcases h : cs_subset_lookup w (.mk sname notify parent cs) (some X) with ⟨_ | he, w1⟩ <;> simp

theorem create_inheritance_sent (L : Lib) (X : CStr) : ∀ (sub : ConfigSubset) (w : World),
    (create_inheritance L w sub (some X)).2.sent = w.sent := by
  intro sub
  induction sub with
  | null => intro w; simp [create_inheritance]
  | mk sname notify parent cs ih =>
    intro w
    rw [create_inheritance_mk]
    cases h0 : (cs_subset_lookup w (.mk sname notify parent cs) (some X)).1 with
    | some he0 => simp
    | none => simp [ih]

/-- An item the config set creates has the base of its parent item. -/
theorem get_base_inherited (L : Lib) (hL : L.DT_INHERITED ≠ 0) (key : CStr) (p : HashElem) :
    get_base L (.mk L.DT_INHERITED key (some p)) = get_base L p := by
  rw [get_base]
  simp [Nat.and_self, hL]

theorem get_base_inherited_isSome (L : Lib) (key : CStr) (p : HashElem)
    (hp : (get_base L p).isSome) : (get_base L (.mk L.DT_INHERITED key (some p))).isSome := by
  rw [get_base]
  split
  · rfl
  · exact hp

theorem cs_inherit_variable_some (L : Lib) (w : World) (cs : Option CsPtr)
    (parent : Option HashElem) (name : CStr) (he : HashElem)
    (h : (cs_inherit_variable L w cs parent name).1 = some he) :
    ∃ p, parent = some p ∧ he = .mk L.DT_INHERITED name (some p) := by
  unfold cs_inherit_variable at h
  cases hd : w.deref cs with
  | none => simp [hd] at h
  | some s =>
    cases parent with
    | none => simp [hd] at h
    | some p =>
      simp only [hd] at h
      split at h
      · simp at h
      · exact ⟨p, rfl, by simpa using h.symm⟩

theorem cs_subset_lookup_mem_hash (w : World) (sname : Option CStr) (notify : NotifyPtr)
    (parent : ConfigSubset) (cs : Option CsPtr) (X : CStr) (he : HashElem)
    (h : (cs_subset_lookup w (.mk sname notify parent cs) (some X)).1 = some he) :
    ∃ c, cs = some c ∧ he ∈ (w.mem c).hash := by
  unfold cs_subset_lookup cs_get_elem World.deref at h
  cases cs with
  | none => simp at h
  | some c => exact ⟨c, rfl, List.mem_of_find?_eq_some (by simpa using h)⟩

theorem create_inheritance_based (L : Lib) (X : CStr) : ∀ (sub : ConfigSubset) (w : World),
    w.items_based L → ∀ he, (create_inheritance L w sub (some X)).1 = some he →
      (get_base L he).isSome := by
  intro sub
  induction sub with
  | null => intro w _ he h; simp [create_inheritance] at h
  | mk sname notify parent cs ih =>
    intro w hw he h
    rw [create_inheritance_mk] at h
    cases h0 : (cs_subset_lookup w (.mk sname notify parent cs) (some X)).1 with
    | some he0 =>
      rw [h0] at h
      simp only [Option.some.injEq] at h
      subst h
      obtain ⟨c, _, hc⟩ := cs_subset_lookup_mem_hash w sname notify parent cs X he0 h0
      exact hw c he0 hc
    | none =>
      rw [h0] at h
      obtain ⟨p, hp, rfl⟩ := cs_inherit_variable_some L _ _ _ _ he h
      apply get_base_inherited_isSome
      apply ih (cs_subset_lookup w (.mk sname notify parent cs) (some X)).2 _ p hp
      intro c e he
      rw [cs_subset_lookup_mem] at he
      exact hw c e he

theorem cs_subset_native_set_mk (L : Lib) (w : World) (sname : Option CStr) (notify : NotifyPtr)
    (parent : ConfigSubset) (cs : Option CsPtr) (he : HashElem) (value : Int) :
    cs_subset_native_set L w (.mk sname notify parent cs) (some he) value =
      if Int.land (cs_he_native_set L w cs he value).1 L.CSR_SUC_NO_CHANGE = 0 then
        (get_base L he).map (fun he_base =>
          ((cs_he_native_set L w cs he value).1,
            notify_send (cs_he_native_set L w cs he value).2 notify L.NT_CONFIG L.NT_CONFIG_SET
              ⟨.mk sname notify parent cs, he_base.key, he⟩))
      else some (cs_he_native_set L w cs he value) := by
  unfold cs_subset_native_set
  simp only
  split_ifs with h
  · cases get_base L he <;> rfl
  · rfl

theorem cs_subset_native_set2_mk (L : Lib) (w : World) (sname : Option CStr) (notify : NotifyPtr)
    (parent : ConfigSubset) (cs : Option CsPtr) (X : CStr) (value : Int) :
    cs_subset_native_set2 L w (.mk sname notify parent cs) (some X) value =
      match (create_inheritance L w (.mk sname notify parent cs) (some X)).1 with
      | none =>
        some (L.CSR_ERR_CODE, (create_inheritance L w (.mk sname notify parent cs) (some X)).2)
      | some he =>
        cs_subset_native_set L (create_inheritance L w (.mk sname notify parent cs) (some X)).2
          (.mk sname notify parent cs) (some he) value := by
  unfold cs_subset_native_set2 cs_subset_native_set
  simp only
  rcases create_inheritance L w (.mk sname notify parent cs) (some X) with ⟨_ | he, w1⟩ <;> rfl

/-- The notification rule of `cs_subset_native_set`, for an item with a base. -/
theorem native_set_rule (L : Lib) (w : World) (sname : Option CStr) (notify : NotifyPtr)
    (parent : ConfigSubset) (cs : Option CsPtr) (value : Int) (he : HashElem)
    (hb : (get_base L he).isSome) :
    ∃ w', cs_subset_native_set L w (.mk sname notify parent cs) (some he) value
        = some ((cs_he_native_set L w cs he value).1, w') ∧
      (Int.land (cs_he_native_set L w cs he value).1 L.CSR_SUC_NO_CHANGE ≠ 0 →
        w'.sent = w.sent) ∧
      (Int.land (cs_he_native_set L w cs he value).1 L.CSR_SUC_NO_CHANGE = 0 →
        ∃ ec, w'.sent = w.sent ++ [⟨notify, L.NT_CONFIG, L.NT_CONFIG_SET, ec⟩]) := by
  obtain ⟨b, hb⟩ := Option.isSome_iff_exists.mp hb
  rw [cs_subset_native_set_mk]
  by_cases hrc : Int.land (cs_he_native_set L w cs he value).1 L.CSR_SUC_NO_CHANGE = 0
  · rw [if_pos hrc, hb]
    refine ⟨_, rfl, fun h => absurd hrc h, fun _ => ⟨⟨.mk sname notify parent cs, b.key, he⟩, ?_⟩⟩
    simp [notify_send]
  · rw [if_neg hrc]
    exact ⟨_, rfl, fun _ => by simp, fun h => absurd h hrc⟩

/-- C3: for a subset `sub` and an item `he` (`cs_subset_native_set`), or a name
`X` (`cs_subset_native_set2`, with `he` the item `create_inheritance` gives for
`X`), and for the status `rc` the native set of the config set returns: the
call returns `rc`; when `rc` does not carry `CSR_SUC_NO_CHANGE` exactly one
notification is sent, an `NT_CONFIG` / `NT_CONFIG_SET` on the notifier of
`sub`; when `rc` carries it none is sent.  Nothing else is ever sent, so no
other notifier is used.  Without an item for `X` the by-name setter makes no
native set and sends nothing.  The items are taken to have a base. -/
theorem native_set_notifies_once (L : Lib) (w : World) (sname : Option CStr) (notify : NotifyPtr)
    (parent : ConfigSubset) (cs : Option CsPtr) (value : Int) (hw : w.items_based L) :
    (∀ he, (get_base L he).isSome →
      ∃ w', cs_subset_native_set L w (.mk sname notify parent cs) (some he) value
          = some ((cs_he_native_set L w cs he value).1, w') ∧
        (Int.land (cs_he_native_set L w cs he value).1 L.CSR_SUC_NO_CHANGE ≠ 0 →
          w'.sent = w.sent) ∧
        (Int.land (cs_he_native_set L w cs he value).1 L.CSR_SUC_NO_CHANGE = 0 →
          ∃ ec, w'.sent = w.sent ++ [⟨notify, L.NT_CONFIG, L.NT_CONFIG_SET, ec⟩])) ∧
    (∀ X,
      ((create_inheritance L w (.mk sname notify parent cs) (some X)).1 = none →
        ∃ w', cs_subset_native_set2 L w (.mk sname notify parent cs) (some X) value
            = some (L.CSR_ERR_CODE, w') ∧ w'.sent = w.sent ∧
            w'.calls = (create_inheritance L w (.mk sname notify parent cs) (some X)).2.calls) ∧
      (∀ he, (create_inheritance L w (.mk sname notify parent cs) (some X)).1 = some he →
        ∃ w', cs_subset_native_set2 L w (.mk sname notify parent cs) (some X) value
            = some ((cs_he_native_set L
                (create_inheritance L w (.mk sname notify parent cs) (some X)).2
                cs he value).1, w') ∧
          (Int.land (cs_he_native_set L
              (create_inheritance L w (.mk sname notify parent cs) (some X)).2
              cs he value).1 L.CSR_SUC_NO_CHANGE ≠ 0 → w'.sent = w.sent) ∧
          (Int.land (cs_he_native_set L
              (create_inheritance L w (.mk sname notify parent cs) (some X)).2
              cs he value).1 L.CSR_SUC_NO_CHANGE = 0 →
            ∃ ec, w'.sent = w.sent ++ [⟨notify, L.NT_CONFIG, L.NT_CONFIG_SET, ec⟩]))) := by
  refine ⟨fun he hb => native_set_rule L w sname notify parent cs value he hb, ?_⟩
  intro X
  have hsent := create_inheritance_sent L X (.mk sname notify parent cs) w
  refine ⟨?_, ?_⟩
  · intro hnone
    rw [cs_subset_native_set2_mk, hnone]
    exact ⟨_, rfl, hsent, rfl⟩
  · intro he hsome
    have hb := create_inheritance_based L X (.mk sname notify parent cs) w hw he hsome
    rw [cs_subset_native_set2_mk, hsome]
    obtain ⟨w', h1, h2, h3⟩ := native_set_rule L
      (create_inheritance L w (.mk sname notify parent cs) (some X)).2
      sname notify parent cs value he hb
    rw [hsent] at h2 h3
    exact ⟨w', h1, h2, h3⟩

theorem demoWorld_items_based : demoWorld.items_based demoLib := by
  intro c e he
  have hh : (demoWorld.mem c).hash = [he_timeout] := rfl
  rw [hh, List.mem_singleton] at he
  subst he
  rfl

theorem demoInbox_eq : demoInbox = .mk (some (cstr "acct1:inbox")) 3 demoAcct (some 0) := by
  decide

theorem demoRoot_eq : demoRoot = .mk none 1 .null (some 0) := rfl

/-- C3 at the sample world: setting `timeout` to 60 by name at `acct1:inbox`
(a change, status 0) sends one notification on the notifier of `acct1:inbox`;
setting the root item to the 30 it already holds (status 128, no change) sends
none. -/
theorem native_set_notifies_once_demo :
    (∃ w', cs_subset_native_set2 demoLib demoWorld demoInbox (some (cstr "timeout")) 60
        = some (0, w') ∧
      ∃ ec, w'.sent = [⟨3, demoLib.NT_CONFIG, demoLib.NT_CONFIG_SET, ec⟩]) ∧
    (∃ w', cs_subset_native_set demoLib demoWorld demoRoot (some he_timeout) 30
        = some (128, w') ∧ w'.sent = []) := by
  have h := native_set_notifies_once demoLib demoWorld (some (cstr "acct1:inbox")) 3 demoAcct
    (some 0) 60 demoWorld_items_based
  have hr := native_set_notifies_once demoLib demoWorld none 1 .null (some 0) 30
    demoWorld_items_based
  rw [← demoInbox_eq] at h
  rw [← demoRoot_eq] at hr
  have hrc : (cs_he_native_set demoLib
      (create_inheritance demoLib demoWorld demoInbox (some (cstr "timeout"))).2 (some 0)
      (HashElem.mk 64 (cstr "acct1:inbox:timeout")
        (some (HashElem.mk 64 (cstr "acct1:timeout") (some he_timeout)))) 60).1 = 0 := by
    decide
  have hrc2 : (cs_he_native_set demoLib demoWorld (some 0) he_timeout 30).1 = 128 := by decide
  refine ⟨?_, ?_⟩
  · obtain ⟨w', h1, _, h3⟩ := (h.2 (cstr "timeout")).2
      (.mk 64 (cstr "acct1:inbox:timeout") (some (.mk 64 (cstr "acct1:timeout") (some he_timeout))))
      (by decide)
    rw [hrc] at h1 h3
    exact ⟨w', h1, h3 (by decide)⟩
  · obtain ⟨w', h1, h2, _⟩ := hr.1 he_timeout (by decide)
    rw [hrc2] at h1 h2
    exact ⟨w', h1, h2 (by decide)⟩

/-! ## The payload of the by-name setter (C4) -/

/-- The item `get_base` returns ends the chain of parent links. -/
theorem baseOf_of_get_base (L : Lib) : ∀ (he b : HashElem), get_base L he = some b → BaseOf L he b
  | .mk type key none, b, h => by
    rw [get_base] at h
    split at h
    · next h0 =>
      simp only [Option.some.injEq] at h
      subst h
      exact BaseOf.here _ h0
    · simp at h
  | .mk type key (some p), b, h => by
    rw [get_base] at h
    split at h
    · next h0 =>
      simp only [Option.some.injEq] at h
      subst h
      exact BaseOf.here _ h0
    · next h0 =>
      exact BaseOf.step _ p b h0 rfl (baseOf_of_get_base L p b h)

/-- What `cs_subset_lookup` finds depends on the registered items only. -/
theorem cs_subset_lookup_congr_hash (w1 w2 : World) (h : ∀ c, (w1.mem c).hash = (w2.mem c).hash)
    (sub : ConfigSubset) (name : Option CStr) :
    (cs_subset_lookup w1 sub name).1 = (cs_subset_lookup w2 sub name).1 := by
  unfold cs_subset_lookup cs_get_elem World.deref
  cases sub with
  | null => rfl
  | mk sname notify parent cs =>
    cases name with
    | none => rfl
    | some name => cases cs <;> simp [h]

theorem set_vars_hash (w : World) (cs : Option CsPtr) (v : Vars) (c : CsPtr) :
    ((w.set_vars cs v).mem c).hash = (w.mem c).hash := by
  unfold World.set_vars World.deref World.store
  cases cs with
  | none => rfl
  | some r =>
    simp only [Option.map_some']
    by_cases hc : c = r
    · subst hc
      simp
    · simp [Function.update_noteq hc]

theorem cs_he_native_set_hash (L : Lib) (w : World) (cs : Option CsPtr) (he : HashElem)
    (value : Int) (c : CsPtr) :
    ((cs_he_native_set L w cs he value).2.mem c).hash = (w.mem c).hash := by
  simp [cs_he_native_set, set_vars_hash]

/-- A successful `cs_inherit_variable`: the name was free, and the new item,
flagged inherited and linked to the parent item, is registered last. -/
theorem cs_inherit_variable_spec (L : Lib) (w : World) (cs : Option CsPtr)
    (parent : Option HashElem) (name : CStr) (he : HashElem)
    (h : (cs_inherit_variable L w cs parent name).1 = some he) :
    ∃ c p, cs = some c ∧ parent = some p ∧ he = .mk L.DT_INHERITED name (some p) ∧
      (∀ e ∈ (w.mem c).hash, e.key ≠ name) ∧
      (cs_inherit_variable L w cs parent name).2.mem
        = Function.update w.mem c { (w.mem c) with hash := (w.mem c).hash ++ [he] } := by
  unfold cs_inherit_variable at h ⊢
  cases cs with
  | none => simp [World.deref] at h
  | some c =>
    cases parent with
    | none => simp [World.deref] at h
    | some p =>
      simp only [World.deref, Option.map_some'] at h ⊢
      split at h
      · simp at h
      · next hany =>
        simp only [Option.some.injEq] at h
        subst h
        refine ⟨c, p, rfl, rfl, rfl, ?_, ?_⟩
        · intro e he hk
          apply hany
          simp only [List.any_eq_true, decide_eq_true_eq]
          exact ⟨e, he, hk⟩
        · rw [if_neg hany]
          rfl

theorem find_append_new (l : List HashElem) (he : HashElem)
    (h : ∀ e ∈ l, e.key ≠ he.key) :
    (l ++ [he]).find? (fun e => e.key = he.key) = some he := by
  rw [List.find?_append]
  have : l.find? (fun e => e.key = he.key) = none := by
    rw [List.find?_eq_none]
    intro e hm
    simpa using h e hm
  simp [this]

theorem cs_subset_lookup_named (w : World) (n : CStr) (notify : NotifyPtr)
    (parent : ConfigSubset) (c : CsPtr) (X : CStr) :
    (cs_subset_lookup w (.mk (some n) notify parent (some c)) (some X)).1
      = (w.mem c).hash.find? (fun e => e.key = snprintf 256 (n ++ colon ++ X)) := rfl

/-- The item `create_inheritance` gives for a named subset, or for a root, is
the one registered at the qualified key of the subset. -/
theorem create_inheritance_registered (L : Lib) (w : World) (sname : Option CStr)
    (notify : NotifyPtr) (parent : ConfigSubset) (cs : Option CsPtr) (X : CStr) (he : HashElem)
    (hS : sname ≠ none ∨ parent = .null)
    (h : (create_inheritance L w (.mk sname notify parent cs) (some X)).1 = some he) :
    (cs_subset_lookup (create_inheritance L w (.mk sname notify parent cs) (some X)).2
      (.mk sname notify parent cs) (some X)).1 = some he := by
  rw [create_inheritance_mk] at h ⊢
  cases h0 : (cs_subset_lookup w (.mk sname notify parent cs) (some X)).1 with
  | some he0 =>
    rw [h0] at h
    simp only [Option.some.injEq] at h
    subst h
    simp only
    rw [cs_subset_lookup_congr _ w (cs_subset_lookup_mem _ _ _), h0]
  | none =>
    rw [h0] at h
    simp only at h ⊢
    cases sname with
    | none =>
      obtain ⟨p, hp, _⟩ := cs_inherit_variable_some L _ _ _ _ he h
      rcases hS with hS | hS
      · exact absurd rfl hS
      · subst hS
        simp [create_inheritance] at hp
    | some n =>
      simp only [fmt_s] at h ⊢
      obtain ⟨c, p, hc, hp, hhe, hfree, hmem⟩ := cs_inherit_variable_spec L _ _ _ _ he h
      subst hc
      have hkey : he.key = snprintf 256 (n ++ colon ++ X) := by
        rw [hhe]
        rfl
      rw [cs_subset_lookup_named, hmem, Function.update_same]
      simp only
      rw [← hkey]
      apply find_append_new
      intro e hm
      rw [hkey]
      exact hfree e hm

theorem anc_ne_null_of_lookup (w : World) (X : CStr) (he : HashElem) (sub : ConfigSubset)
    (h : (cs_subset_lookup w sub (some X)).1 = some he) :
    ∃ sname notify parent cs, sub = .mk sname notify parent cs := by
  cases sub with
  | null => simp [cs_subset_lookup] at h
  | mk sname notify parent cs => exact ⟨sname, notify, parent, cs, rfl⟩

/-- The item `create_inheritance` gives has the base of the item found at the
nearest subset of the chain that holds one. -/
theorem create_inheritance_base (L : Lib) (hL : L.DT_INHERITED ≠ 0) (X : CStr) (e : HashElem) :
    ∀ (k : Nat) (sub : ConfigSubset) (w : World),
      (∀ i, i < k → (cs_subset_lookup w (anc i sub) (some X)).1 = none) →
      (cs_subset_lookup w (anc k sub) (some X)).1 = some e →
      ∀ he, (create_inheritance L w sub (some X)).1 = some he → get_base L he = get_base L e := by
  intro k
  induction k with
  | zero =>
    intro sub w _ hk he h
    simp only [anc] at hk
    obtain ⟨sname, notify, parent, cs, rfl⟩ := anc_ne_null_of_lookup w X e sub hk
    rw [create_inheritance_mk, hk] at h
    simp only [Option.some.injEq] at h
    rw [h]
  | succ k ih =>
    intro sub w hlt hk he h
    cases sub with
    | null =>
      rw [anc_null] at hk
      simp [cs_subset_lookup] at hk
    | mk sname notify parent cs =>
      have h0 := hlt 0 (Nat.succ_pos k)
      simp only [anc] at h0
      rw [create_inheritance_mk, h0] at h
      simp only at h
      obtain ⟨p, hp, rfl⟩ := cs_inherit_variable_some L _ _ _ _ he h
      rw [get_base_inherited L hL]
      have hmem := cs_subset_lookup_mem w (.mk sname notify parent cs) (some X)
      apply ih parent (cs_subset_lookup w (.mk sname notify parent cs) (some X)).2 _ _ p hp
      · intro i hi
        rw [cs_subset_lookup_congr _ w hmem]
        exact hlt (i + 1) (Nat.succ_lt_succ hi)
      · rw [cs_subset_lookup_congr _ w hmem]
        exact hk

theorem get_base_self (L : Lib) (e : HashElem) (h : e.type &&& L.DT_INHERITED = 0) :
    get_base L e = some e := by
  cases e with
  | mk type key parent =>
    have h2 : type &&& L.DT_INHERITED = 0 := h
    unfold get_base
    rw [if_pos h2]

theorem cs_subset_lookup_key_unnamed (w : World) (notify : NotifyPtr) (parent : ConfigSubset)
    (cs : Option CsPtr) (X : CStr) (e : HashElem)
    (h : (cs_subset_lookup w (.mk none notify parent cs) (some X)).1 = some e) :
    e.key = X.take 255 := by
  unfold cs_subset_lookup cs_get_elem at h
  cases hd : w.deref cs with
  | none => simp [hd] at h
  | some s =>
    simp only [hd] at h
    have := List.find?_some h
    simpa [mutt_str_strfcpy] using this

/-- What a notifying `cs_subset_native_set2` did: it got an item from
`create_inheritance`, that item has a base, and the one notification carries
the subset, the key of the base and the item. -/
theorem native_set2_sent (L : Lib) (w : World) (sname : Option CStr) (notify : NotifyPtr)
    (parent : ConfigSubset) (cs : Option CsPtr) (X : CStr) (value : Int) (rc : Int) (w' : World)
    (hrun : cs_subset_native_set2 L w (.mk sname notify parent cs) (some X) value = some (rc, w'))
    (hsent : w'.sent ≠ w.sent) :
    ∃ he base, (create_inheritance L w (.mk sname notify parent cs) (some X)).1 = some he ∧
      get_base L he = some base ∧
      w'.sent = w.sent ++ [⟨notify, L.NT_CONFIG, L.NT_CONFIG_SET,
        ⟨.mk sname notify parent cs, base.key, he⟩⟩] ∧
      ∀ c, (w'.mem c).hash
        = ((create_inheritance L w (.mk sname notify parent cs) (some X)).2.mem c).hash := by
  have hs := create_inheritance_sent L X (.mk sname notify parent cs) w
  rw [cs_subset_native_set2_mk] at hrun
  cases hci : (create_inheritance L w (.mk sname notify parent cs) (some X)).1 with
  | none =>
    rw [hci] at hrun
    simp only [Option.some.injEq, Prod.mk.injEq] at hrun
    rw [← hrun.2, hs] at hsent
    exact absurd rfl hsent
  | some he =>
    rw [hci] at hrun
    simp only at hrun
    rw [cs_subset_native_set_mk] at hrun
    split_ifs at hrun with hrc
    · cases hb : get_base L he with
      | none => simp [hb] at hrun
      | some base =>
        rw [hb] at hrun
        simp only [Option.map_some', Option.some.injEq, Prod.mk.injEq] at hrun
        refine ⟨he, base, rfl, hb, ?_, ?_⟩
        · rw [← hrun.2]
          simp [notify_send, hs]
        · intro c
          rw [← hrun.2]
          simp [notify_send, cs_he_native_set_hash]
    · simp only [Option.some.injEq] at hrun
      have hw' : w' = (cs_he_native_set L
          (create_inheritance L w (.mk sname notify parent cs) (some X)).2 cs he value).2 := by
        rw [hrun]
      rw [hw'] at hsent
      simp [hs] at hsent

/-- C4, amended: when `cs_subset_native_set2(sub, X, v)` sends a notification,
the payload is `{ sub, K, he }` with `K` the key of the item that is not
flagged inherited at the end of the parent links of `he`; for `sub` named, or
without a parent, `he` is the item registered at the qualified key of `sub` for
`X`.  When `X` is defined at the unnamed root only, by an item that is not
inherited, `K` is the first 255 bytes of `X` at whatever depth below the root
`sub` is: the bare name `X` when `X` has at most 255 bytes. -/
theorem native_set2_payload (L : Lib) (w : World) (sname : Option CStr) (notify : NotifyPtr)
    (parent : ConfigSubset) (cs : Option CsPtr) (X : CStr) (value : Int) (rc : Int) (w' : World)
    (hrun : cs_subset_native_set2 L w (.mk sname notify parent cs) (some X) value = some (rc, w'))
    (hsent : w'.sent ≠ w.sent) :
    ∃ he base, BaseOf L he base ∧
      w'.sent = w.sent ++ [⟨notify, L.NT_CONFIG, L.NT_CONFIG_SET,
        ⟨.mk sname notify parent cs, base.key, he⟩⟩] ∧
      (sname ≠ none ∨ parent = .null →
        (cs_subset_lookup w' (.mk sname notify parent cs) (some X)).1 = some he) ∧
      (∀ k e, L.DT_INHERITED ≠ 0 →
        (∀ i, i < k → (cs_subset_lookup w (anc i (.mk sname notify parent cs)) (some X)).1 = none) →
        (anc k (.mk sname notify parent cs)).name = none →
        (cs_subset_lookup w (anc k (.mk sname notify parent cs)) (some X)).1 = some e →
        e.type &&& L.DT_INHERITED = 0 →
        base.key = X.take 255 ∧ (X.length ≤ 255 → base.key = X)) := by
  obtain ⟨he, base, hci, hb, hs, hh⟩ :=
    native_set2_sent L w sname notify parent cs X value rc w' hrun hsent
  refine ⟨he, base, baseOf_of_get_base L he base hb, hs, ?_, ?_⟩
  · intro hS
    rw [cs_subset_lookup_congr_hash w' _ hh]
    exact create_inheritance_registered L w sname notify parent cs X he hS hci
  · intro k e hL hlt hname hk he0
    have h1 := create_inheritance_base L hL X e k _ w hlt hk he hci
    rw [hb, get_base_self L e he0] at h1
    simp only [Option.some.injEq] at h1
    subst h1
    obtain ⟨sn, nt, pr, c, hmk⟩ := anc_ne_null_of_lookup w X base _ hk
    rw [hmk] at hk hname
    simp only [ConfigSubset.name] at hname
    subst hname
    have hcut := cs_subset_lookup_key_unnamed w nt pr c X base hk
    refine ⟨hcut, ?_⟩
    intro hlen
    rw [hcut]
    exact List.take_of_length_le hlen

/-- C4 at the sample world: setting `timeout`, defined at the unnamed root
only, by name at `acct1:inbox` sends the key `timeout`, not
`acct1:inbox:timeout`. -/
theorem native_set2_payload_demo :
    ∃ rc w' he, cs_subset_native_set2 demoLib demoWorld demoInbox (some (cstr "timeout")) 60
        = some (rc, w') ∧
      (cs_subset_lookup w' demoInbox (some (cstr "timeout"))).1 = some he ∧
      w'.sent = [⟨3, demoLib.NT_CONFIG, demoLib.NT_CONFIG_SET,
        ⟨demoInbox, cstr "timeout", he⟩⟩] := by
  have hlen : (cs_subset_native_set2 demoLib demoWorld demoInbox (some (cstr "timeout")) 60).map
      (fun r => r.2.sent.length) = some 1 := by decide
  cases hrun : cs_subset_native_set2 demoLib demoWorld demoInbox (some (cstr "timeout")) 60 with
  | none => rw [hrun] at hlen; cases hlen
  | some r =>
    obtain ⟨rc, w'⟩ := r
    rw [hrun] at hlen
    simp only [Option.map_some', Option.some.injEq] at hlen
    have hsent : w'.sent ≠ demoWorld.sent := by
      intro h
      rw [h] at hlen
      exact absurd hlen (by decide)
    rw [demoInbox_eq] at hrun
    obtain ⟨he, base, _, hs, hreg, hroot⟩ := native_set2_payload demoLib demoWorld
      (some (cstr "acct1:inbox")) 3 demoAcct (some 0) (cstr "timeout") 60 rc w' hrun hsent
    have hkey := (hroot 2 he_timeout (by decide) (by decide) (by decide) (by decide)
      (by decide)).2 (by decide)
    rw [hkey] at hs
    refine ⟨rc, w', he, rfl, ?_, ?_⟩
    · rw [demoInbox_eq]
      exact hreg (Or.inl (by simp))
    · rw [demoInbox_eq]
      exact hs

set_option maxRecDepth 100000 in
/-- C4 as stated fails when the name is cut: the unnamed root holds, for the
300-byte name `X`, the item at the first 255 bytes of `X`, which is not
inherited, and `acct1` below the root holds none; setting `X` by name at
`acct1` sends one notification, whose key is those 255 bytes, not `X`. -/
theorem native_set2_payload_cut_name :
    cutAcct.name = some (cstr "acct1") ∧ cutAcct.parent = demoRoot ∧
    demoRoot.name = none ∧ demoRoot.parent = .null ∧
    (cs_subset_lookup cutWorldAcct cutAcct (some longItem)).1 = none ∧
    (cs_subset_lookup cutWorldAcct demoRoot (some longItem)).1 = some he_long ∧
    he_long.type &&& demoLib.DT_INHERITED = 0 ∧
    (cs_subset_native_set2 demoLib cutWorldAcct cutAcct (some longItem) 60).map
        (fun r => r.2.sent.map (fun n => (n.ec.sub, n.ec.name)))
      = some [(cutAcct, longItem.take 255)] ∧
    longItem.take 255 ≠ longItem := by
  decide

/-! ## Creating inherited items (C1, C2) -/

theorem item_at_eq (w : World) (r : CsPtr) (K : CStr) :
    w.item_at (some r) K = (w.mem r).hash.find? (fun e => e.key = K) := rfl

theorem item_at_congr (w1 w2 : World) (h : w1.mem = w2.mem) (cs : Option CsPtr) (K : CStr) :
    w1.item_at cs K = w2.item_at cs K := by
  cases cs with
  | none => rfl
  | some r => rw [item_at_eq, item_at_eq, h]

theorem cs_subset_lookup_item_at (w : World) (sub : ConfigSubset) (X : CStr) :
    (cs_subset_lookup w sub (some X)).1 = w.item_at sub.cs (lookup_scope sub.name X) := by
  cases sub with
  | null => rfl
  | mk sname notify parent cs => cases sname <;> rfl

theorem cs_subset_create_var_mk (L : Lib) (w : World) (sname : Option CStr) (notify : NotifyPtr)
    (parent : ConfigSubset) (cs : Option CsPtr) (X : CStr) :
    cs_subset_create_var L w (.mk sname notify parent cs) (some X) =
      match (cs_subset_lookup w (.mk sname notify parent cs) (some X)).1 with
      | some he => (some he, (cs_subset_lookup w (.mk sname notify parent cs) (some X)).2)
      | none =>
        match (cs_subset_create_var L
            (cs_subset_lookup w (.mk sname notify parent cs) (some X)).2 parent (some X)).1 with
        | none => (none, (cs_subset_create_var L
            (cs_subset_lookup w (.mk sname notify parent cs) (some X)).2 parent (some X)).2)
        | some hp =>
          cs_inherit_variable L
            (cs_subset_create_var L
              (cs_subset_lookup w (.mk sname notify parent cs) (some X)).2 parent (some X)).2 cs
            (some hp) (snprintf 256 (fmt_s sname ++ colon ++ X)) := by
  rw [cs_subset_create_var]
  rcases h : cs_subset_lookup w (.mk sname notify parent cs) (some X) with ⟨_ | he, w1⟩
  · simp only
    rcases h2 : cs_subset_create_var L w1 parent (some X) with ⟨_ | hp, w2⟩ <;> rfl
  · rfl

/-- Registering a free name succeeds: the new item is flagged inherited, linked
to the parent item, and put last in the config set. -/
theorem cs_inherit_variable_free (L : Lib) (w : World) (r : CsPtr) (p : HashElem) (K : CStr)
    (h : w.item_at (some r) K = none) :
    (cs_inherit_variable L w (some r) (some p) K).1 = some (.mk L.DT_INHERITED K (some p)) ∧
    (cs_inherit_variable L w (some r) (some p) K).2.mem
      = Function.update w.mem r
          { (w.mem r) with hash := (w.mem r).hash ++ [.mk L.DT_INHERITED K (some p)] } := by
  rw [item_at_eq, List.find?_eq_none] at h
  have hany : ¬ ((w.mem r).hash.any (fun e => e.key = K) = true) := by
    simp only [List.any_eq_true, decide_eq_true_eq, not_exists, not_and]
    intro e he
    simpa using h e he
  unfold cs_inherit_variable
  simp only [World.deref, Option.map_some']
  rw [if_neg hany]
  exact ⟨rfl, rfl⟩

/-- Registered items stay registered when an item is put last. -/
theorem find_append_some (l : List HashElem) (he e : HashElem) (K : CStr)
    (h : l.find? (fun e => e.key = K) = some e) :
    (l ++ [he]).find? (fun e => e.key = K) = some e := by
  rw [List.find?_append, h]
  rfl

/-- Other names are not affected when an item is put last. -/
theorem find_append_other (l : List HashElem) (he : HashElem) (K : CStr) (h : K ≠ he.key) :
    (l ++ [he]).find? (fun e => e.key = K) = l.find? (fun e => e.key = K) := by
  rw [List.find?_append]
  have : [he].find? (fun e => e.key = K) = none := by
    rw [List.find?_eq_none]
    intro e hm
    simp only [List.mem_singleton] at hm
    subst hm
    simpa using fun h2 => h h2.symm
  rw [this]
  simp

/-- The heart of C1: with the item found `k` levels up and at no level below,
the levels below being named, sharing the config set at `r`, and composing
distinct keys, `cs_subset_create_var` returns the item it registers for `sub`,
touches no other key, keeps what was registered, and links each level to the
next. -/
theorem create_var_chain (L : Lib) (X : CStr) (r : CsPtr) :
    ∀ (k : Nat) (sub : ConfigSubset) (w : World),
      (∀ i, i < k → ∃ n, (anc i sub).name = some n) →
      (∀ i, i ≤ k → (anc i sub).cs = some r) →
      (∀ i j, i < j → j < k →
        lookup_scope (anc i sub).name X ≠ lookup_scope (anc j sub).name X) →
      (∀ i, i < k → w.item_at (some r) (lookup_scope (anc i sub).name X) = none) →
      (w.item_at (some r) (lookup_scope (anc k sub).name X)).isSome →
      ∃ he w', cs_subset_create_var L w sub (some X) = (some he, w') ∧
        w'.item_at (some r) (lookup_scope sub.name X) = some he ∧
        (∀ K, (∀ i, i < k → K ≠ lookup_scope (anc i sub).name X) →
          w'.item_at (some r) K = w.item_at (some r) K) ∧
        (∀ K e, w.item_at (some r) K = some e → w'.item_at (some r) K = some e) ∧
        (∀ i, i < k → ∃ e p, w'.item_at (some r) (lookup_scope (anc i sub).name X) = some e ∧
          e.type = L.DT_INHERITED ∧ e.parent = some p ∧
          w'.item_at (some r) (lookup_scope (anc (i + 1) sub).name X) = some p) := by
  intro k
  induction k with
  | zero =>
    intro sub w _ hcs _ _ hk
    obtain ⟨he, hhe⟩ := Option.isSome_iff_exists.mp hk
    simp only [anc] at hhe
    have hcs0 := hcs 0 (Nat.le_refl 0)
    simp only [anc] at hcs0
    cases sub with
    | null => simp [ConfigSubset.cs] at hcs0
    | mk sname notify parent cs =>
      simp only [ConfigSubset.cs] at hcs0
      subst hcs0
      have hl : (cs_subset_lookup w (.mk sname notify parent (some r)) (some X)).1 = some he := by
        rw [cs_subset_lookup_item_at]
        exact hhe
      have hmem := cs_subset_lookup_mem w (.mk sname notify parent (some r)) (some X)
      refine ⟨he, (cs_subset_lookup w (.mk sname notify parent (some r)) (some X)).2, ?_, ?_, ?_,
        ?_, ?_⟩
      · rw [cs_subset_create_var_mk, hl]
      · rw [item_at_congr _ w hmem]
        exact hhe
      · intro K _
        exact item_at_congr _ w hmem _ K
      · intro K e h
        rw [item_at_congr _ w hmem]
        exact h
      · intro i hi
        exact absurd hi (Nat.not_lt_zero i)
  | succ k ih =>
    intro sub w hn hcs hd habs hk
    have hcs0 := hcs 0 (Nat.zero_le _)
    obtain ⟨n, hn0⟩ := hn 0 (Nat.succ_pos k)
    simp only [anc] at hcs0 hn0
    cases sub with
    | null => simp [ConfigSubset.cs] at hcs0
    | mk sname notify parent cs =>
      simp only [ConfigSubset.cs] at hcs0
      simp only [ConfigSubset.name] at hn0
      subst hcs0
      subst hn0
      have habs0 := habs 0 (Nat.succ_pos k)
      simp only [anc, ConfigSubset.name] at habs0
      have hl : (cs_subset_lookup w (.mk (some n) notify parent (some r)) (some X)).1 = none := by
        rw [cs_subset_lookup_item_at]
        exact habs0
      have hmem := cs_subset_lookup_mem w (.mk (some n) notify parent (some r)) (some X)
      obtain ⟨hp, w2, hcv, hreg, hframe, hpers, hlinks⟩ :=
        ih parent (cs_subset_lookup w (.mk (some n) notify parent (some r)) (some X)).2
          (fun i hi => hn (i + 1) (Nat.succ_lt_succ hi))
          (fun i hi => hcs (i + 1) (Nat.succ_le_succ hi))
          (fun i j hij hj => hd (i + 1) (j + 1) (Nat.succ_lt_succ hij) (Nat.succ_lt_succ hj))
          (fun i hi => by
            rw [item_at_congr _ w hmem]
            exact habs (i + 1) (Nat.succ_lt_succ hi))
          (by
            rw [item_at_congr _ w hmem]
            exact hk)
      have hpers2 : ∀ K e, w.item_at (some r) K = some e → w2.item_at (some r) K = some e :=
        fun K e h => hpers K e (by rw [item_at_congr _ w hmem]; exact h)
      have hfree : w2.item_at (some r) (snprintf 256 (n ++ colon ++ X)) = none := by
        rw [hframe, item_at_congr _ w hmem]
        · exact habs0
        · intro i hi
          exact hd 0 (i + 1) (Nat.succ_pos i) (Nat.succ_lt_succ hi)
      obtain ⟨hres, hmem3⟩ := cs_inherit_variable_free L w2 r hp _ hfree
      have hat : ∀ K, (cs_inherit_variable L w2 (some r) (some hp)
            (snprintf 256 (n ++ colon ++ X))).2.item_at (some r) K
          = ((w2.mem r).hash ++ [HashElem.mk L.DT_INHERITED (snprintf 256 (n ++ colon ++ X))
              (some hp)]).find? (fun e => e.key = K) := by
        intro K
        simp only [item_at_eq, hmem3, Function.update_same]
      have hkeep : ∀ K e, w2.item_at (some r) K = some e →
          (cs_inherit_variable L w2 (some r) (some hp)
            (snprintf 256 (n ++ colon ++ X))).2.item_at (some r) K = some e := by
        intro K e h
        rw [hat]
        exact find_append_some _ _ _ _ h
      have hnew : (cs_inherit_variable L w2 (some r) (some hp)
            (snprintf 256 (n ++ colon ++ X))).2.item_at (some r) (snprintf 256 (n ++ colon ++ X))
          = some (HashElem.mk L.DT_INHERITED (snprintf 256 (n ++ colon ++ X)) (some hp)) := by
        rw [hat]
        apply find_append_new _
          (HashElem.mk L.DT_INHERITED (snprintf 256 (n ++ colon ++ X)) (some hp))
        intro e hm hkey
        rw [item_at_eq, List.find?_eq_none] at hfree
        exact absurd hkey (by simpa using hfree e hm)
      refine ⟨HashElem.mk L.DT_INHERITED (snprintf 256 (n ++ colon ++ X)) (some hp),
        (cs_inherit_variable L w2 (some r) (some hp) (snprintf 256 (n ++ colon ++ X))).2,
        ?_, hnew, ?_, ?_, ?_⟩
      · rw [cs_subset_create_var_mk, hl]
        simp only [hcv, fmt_s]
        rw [← hres]
      · intro K hK
        rw [hat, find_append_other, ← item_at_eq, hframe, item_at_congr _ w hmem]
        · intro i hi
          exact hK (i + 1) (Nat.succ_lt_succ hi)
        · exact hK 0 (Nat.succ_pos k)
      · intro K e h
        exact hkeep K e (hpers2 K e h)
      · intro i hi
        cases i with
        | zero =>
          exact ⟨_, hp, hnew, rfl, rfl, hkeep _ _ hreg⟩
        | succ i =>
          obtain ⟨e, p, h1, h2, h3, h4⟩ := hlinks i (Nat.lt_of_succ_lt_succ hi)
          exact ⟨e, p, hkeep _ _ h1, h2, h3, hkeep _ _ h4⟩

theorem anc_succ (i : Nat) (sub : ConfigSubset) : anc (i + 1) sub = (anc i sub).parent := by
  induction i generalizing sub with
  | zero => rfl
  | succ i ih =>
    show anc (i + 1) sub.parent = (anc i sub.parent).parent
    exact ih sub.parent

theorem anc_null_of_le (sub : ConfigSubset) (i k : Nat) (hik : i ≤ k) (h : anc i sub = .null) :
    anc k sub = .null := by
  induction k with
  | zero =>
    have : i = 0 := Nat.le_zero.mp hik
    subst this
    exact h
  | succ k ih =>
    rcases Nat.lt_or_ge i (k + 1) with hlt | hge
    · rw [anc_succ, ih (Nat.lt_succ_iff.mp hlt)]
      rfl
    · have : i = k + 1 := Nat.le_antisymm hik hge
      subst this
      exact h

theorem built_parent (sname : Option CStr) (notify : NotifyPtr) (parent : ConfigSubset)
    (cs : Option CsPtr) (h : (ConfigSubset.mk sname notify parent cs).built) : parent.built := by
  unfold ConfigSubset.built at h
  exact h.1

theorem built_anc (sub : ConfigSubset) (h : sub.built) (i : Nat) : (anc i sub).built := by
  induction i generalizing sub with
  | zero => exact h
  | succ i ih =>
    cases sub with
    | null => exact ih _ h
    | mk sname notify parent cs => exact ih _ (built_parent _ _ _ _ h)

/-- What `cs_subset_new` makes of a subset below a parent: the config set is
the parent's, and a scope below a named parent extends the scope of the parent. -/
theorem built_child (sub : ConfigSubset) (h : sub.built) (hp : sub.parent ≠ .null) :
    sub.cs = sub.parent.cs ∧
    ∀ c p, sub.name = some c → sub.parent.name = some p →
      ∃ nm, c = snprintf 256 (p ++ colon ++ nm) := by
  cases sub with
  | null => exact absurd rfl hp
  | mk sname notify parent cs =>
    unfold ConfigSubset.built at h
    simp only [ConfigSubset.parent] at hp
    rcases h.2 with h2 | ⟨w, name, np, h2⟩
    · exact absurd h2 hp
    · cases parent with
      | null => exact absurd rfl hp
      | mk pn pnotify pp pcs =>
        simp only [cs_subset_new, ConfigSubset.mk.injEq] at h2
        obtain ⟨hname, _, _, hcs⟩ := h2
        refine ⟨hcs.symm, ?_⟩
        intro c p hc hpn
        simp only [ConfigSubset.name, ConfigSubset.parent] at hc hpn
        subst hc hpn
        cases name with
        | none => simp at hname
        | some nm =>
          simp only [Option.some.injEq] at hname
          exact ⟨nm, hname.symm⟩

theorem built_cs (sub : ConfigSubset) (h : sub.built) (k : Nat) (hk : anc k sub ≠ .null) :
    ∀ i, i ≤ k → (anc i sub).cs = sub.cs := by
  intro i
  induction i with
  | zero => intro _; rfl
  | succ i ih =>
    intro hi
    have hnn : (anc i sub).parent ≠ .null := by
      rw [← anc_succ]
      intro h0
      exact hk (anc_null_of_le sub (i + 1) k hi h0)
    rw [anc_succ, ← (built_child (anc i sub) (built_anc sub h i) hnn).1]
    exact ih (Nat.le_of_succ_le hi)

theorem lookup_scope_fit (n X : CStr) (h : (n ++ colon ++ X).length ≤ 255) :
    lookup_scope (some n) X = n ++ colon ++ X := by
  simp only [lookup_scope, snprintf]
  exact List.take_of_length_le (by simpa using h)

/-- Below a named parent a scope that is not cut is longer than the scope of
the parent. -/
theorem built_name_lt (sub : ConfigSubset) (h : sub.built) (c p : CStr)
    (hc : sub.name = some c) (hp : sub.parent.name = some p) (hfit : c.length < 255) :
    p.length < c.length := by
  have hnn : sub.parent ≠ .null := by
    intro h0
    rw [h0] at hp
    cases hp
  obtain ⟨nm, hnm⟩ := (built_child sub h hnn).2 c p hc hp
  have hlen : c.length = min 255 (p ++ colon ++ nm).length := by
    rw [hnm]
    simp [snprintf]
  simp only [List.length_append, colon, List.length_singleton] at hlen
  omega

/-- The scopes of the named levels below level `k` get shorter going up. -/
theorem built_names_decrease (sub : ConfigSubset) (h : sub.built) (X : CStr) (k : Nat)
    (hn : ∀ i, i < k → ∃ n, (anc i sub).name = some n ∧ (n ++ colon ++ X).length ≤ 255) :
    ∀ j i, i < j → j < k → ∀ a b, (anc i sub).name = some a → (anc j sub).name = some b →
      b.length < a.length := by
  intro j
  induction j with
  | zero => intro i hi; exact absurd hi (Nat.not_lt_zero i)
  | succ j ih =>
    intro i hij hjk a b ha hb
    obtain ⟨m, hm, hmfit⟩ := hn j (Nat.lt_of_succ_lt hjk)
    have hstep : b.length < m.length := by
      apply built_name_lt (anc j sub) (built_anc sub h j) m b hm
      · rw [← anc_succ]
        exact hb
      · simp only [List.length_append, colon, List.length_singleton] at hmfit
        omega
    rcases Nat.lt_or_ge i j with hlt | hge
    · exact Nat.lt_trans hstep (ih i hlt (Nat.lt_of_succ_lt hjk) a m ha hm)
    · have : i = j := Nat.le_antisymm (Nat.lt_succ_iff.mp hij) hge
      subst this
      rw [hm] at ha
      cases ha
      exact hstep

/-- The keys composed for the named levels below level `k` are distinct. -/
theorem built_keys_distinct (sub : ConfigSubset) (h : sub.built) (X : CStr) (k : Nat)
    (hn : ∀ i, i < k → ∃ n, (anc i sub).name = some n ∧ (n ++ colon ++ X).length ≤ 255) :
    ∀ i j, i < j → j < k →
      lookup_scope (anc i sub).name X ≠ lookup_scope (anc j sub).name X := by
  intro i j hij hjk heq
  obtain ⟨a, ha, hafit⟩ := hn i (Nat.lt_trans hij hjk)
  obtain ⟨b, hb, hbfit⟩ := hn j hjk
  have hlt := built_names_decrease sub h X k hn j i hij hjk a b ha hb
  rw [ha, hb, lookup_scope_fit a X hafit, lookup_scope_fit b X hbfit] at heq
  have := congrArg List.length heq
  simp only [List.length_append] at this
  omega

/-- C1: for a subset `sub` the program made, with the item for `X` held `k`
levels up its parent chain and at no level below, the levels below being named
and their keys fitting in 255 bytes: `cs_subset_create_var(sub, X)` returns the
item registered at the qualified key of `sub`, and afterwards each level `i`
below `k` holds at `name_i + ":" + X` an item flagged inherited whose parent
link is the item at the qualified key of level `i + 1`. -/
theorem create_var_materialises (L : Lib) (hL : L.DT_INHERITED ≠ 0) (w : World)
    (sub : ConfigSubset) (X : CStr) (k : Nat) (hb : sub.built)
    (hn : ∀ i, i < k → ∃ n, (anc i sub).name = some n ∧ (n ++ colon ++ X).length ≤ 255)
    (habs : ∀ i, i < k → (cs_subset_lookup w (anc i sub) (some X)).1 = none)
    (hk : (cs_subset_lookup w (anc k sub) (some X)).1 ≠ none) :
    ∃ he w', cs_subset_create_var L w sub (some X) = (some he, w') ∧
      (cs_subset_lookup w' sub (some X)).1 = some he ∧
      ∀ i, i < k → ∃ n e p, (anc i sub).name = some n ∧
        w'.item_at sub.cs (n ++ colon ++ X) = some e ∧
        e.type &&& L.DT_INHERITED ≠ 0 ∧ e.parent = some p ∧
        (cs_subset_lookup w' (anc (i + 1) sub) (some X)).1 = some p := by
  have hknn : anc k sub ≠ .null := by
    intro h0
    rw [h0] at hk
    exact hk rfl
  have hcsall := built_cs sub hb k hknn
  rw [cs_subset_lookup_item_at, hcsall k (Nat.le_refl k)] at hk
  cases hr : sub.cs with
  | none =>
    rw [hr] at hk
    exact absurd rfl hk
  | some r =>
    rw [hr] at hk hcsall
    obtain ⟨he, w', hcv, hreg, _, _, hlinks⟩ := create_var_chain L X r k sub w
      (fun i hi => (hn i hi).imp fun n h => h.1)
      hcsall
      (built_keys_distinct sub hb X k hn)
      (fun i hi => by
        have := habs i hi
        rw [cs_subset_lookup_item_at, hcsall i (Nat.le_of_lt hi)] at this
        exact this)
      (Option.isSome_iff_ne_none.mpr hk)
    refine ⟨he, w', hcv, ?_, ?_⟩
    · rw [cs_subset_lookup_item_at, hr]
      exact hreg
    · intro i hi
      obtain ⟨n, hname, hfit⟩ := hn i hi
      obtain ⟨e, p, h1, h2, h3, h4⟩ := hlinks i hi
      refine ⟨n, e, p, hname, ?_, ?_, h3, ?_⟩
      · rw [hname, lookup_scope_fit n X hfit] at h1
        exact h1
      · rw [h2, Nat.and_self]
        exact hL
      · rw [cs_subset_lookup_item_at, hcsall (i + 1) (Nat.succ_le_of_lt hi)]
        exact h4

theorem demoAcct_eq : demoAcct = .mk (some (cstr "acct1")) 2 demoRoot (some 0) := by
  decide

theorem demoInbox_built : demoInbox.built := by
  have hroot : demoRoot.built := by
    unfold demoRoot ConfigSubset.built
    exact ⟨trivial, Or.inl rfl⟩
  have hacct : demoAcct.built := by
    rw [demoAcct_eq]
    unfold ConfigSubset.built
    exact ⟨hroot, Or.inr ⟨demoWorld0, some (cstr "acct1"), some 1, by decide⟩⟩
  rw [demoInbox_eq]
  unfold ConfigSubset.built
  exact ⟨hacct, Or.inr ⟨demoWorld1, some (cstr "inbox"), some 2, by decide⟩⟩

/-- C1 at the sample world: `timeout` is held by the root only, two levels
above `acct1:inbox`; creating it there registers `acct1:inbox:timeout`. -/
theorem create_var_materialises_demo :
    ∃ he w', cs_subset_create_var demoLib demoWorld demoInbox (some (cstr "timeout"))
        = (some he, w') ∧
      (cs_subset_lookup w' demoInbox (some (cstr "timeout"))).1 = some he ∧
      ∃ e p, w'.item_at (some 0) (cstr "acct1:inbox" ++ colon ++ cstr "timeout") = some e ∧
        e.parent = some p ∧
        (cs_subset_lookup w' demoAcct (some (cstr "timeout"))).1 = some p := by
  obtain ⟨he, w', h1, h2, h3⟩ := create_var_materialises demoLib (by decide) demoWorld demoInbox
    (cstr "timeout") 2 demoInbox_built
    (by
      intro i hi
      interval_cases i
      · exact ⟨cstr "acct1:inbox", by decide, by decide⟩
      · exact ⟨cstr "acct1", by decide, by decide⟩)
    (by decide) (by decide)
  obtain ⟨n, e, p, hn, he1, _, he3, he4⟩ := h3 0 (by decide)
  have hn2 : n = cstr "acct1:inbox" := by
    have h0 : (anc 0 demoInbox).name = some (cstr "acct1:inbox") := by decide
    rw [h0] at hn
    exact (Option.some.inj hn).symm
  subst hn2
  exact ⟨he, w', h1, h2, e, p, he1, he3, he4⟩

/-- With no item for `X` on the whole parent chain `cs_subset_create_var`
returns `NULL` and leaves every config set as it was. -/
theorem create_var_unresolved (L : Lib) (X : CStr) : ∀ (sub : ConfigSubset) (w : World),
    (∀ i, (cs_subset_lookup w (anc i sub) (some X)).1 = none) →
    (cs_subset_create_var L w sub (some X)).1 = none ∧
    (cs_subset_create_var L w sub (some X)).2.mem = w.mem := by
  intro sub
  induction sub with
  | null => intro w _; simp [cs_subset_create_var]
  | mk sname notify parent cs ih =>
    intro w hall
    have h0 := hall 0
    simp only [anc] at h0
    have hmem := cs_subset_lookup_mem w (.mk sname notify parent cs) (some X)
    obtain ⟨ih1, ih2⟩ := ih (cs_subset_lookup w (.mk sname notify parent cs) (some X)).2
      (fun i => by
        rw [cs_subset_lookup_congr _ w hmem]
        exact hall (i + 1))
    rw [cs_subset_create_var_mk, h0]
    simp only [ih1]
    exact ⟨trivial, by rw [ih2, hmem]⟩

/-- Either no level of the parent chain holds an item for `X`, or there is a
nearest level that does. -/
theorem first_found (w : World) (sub : ConfigSubset) (X : CStr) :
    (∀ i, (cs_subset_lookup w (anc i sub) (some X)).1 = none) ∨
    ∃ k, (∀ i, i < k → (cs_subset_lookup w (anc i sub) (some X)).1 = none) ∧
      (cs_subset_lookup w (anc k sub) (some X)).1 ≠ none := by
  by_cases h : ∃ k, (cs_subset_lookup w (anc k sub) (some X)).1 ≠ none
  · right
    classical
    refine ⟨Nat.find h, ?_, Nat.find_spec h⟩
    intro i hi
    have := Nat.find_min h hi
    exact not_not.mp this
  · left
    intro i
    by_contra hne
    exact h ⟨i, hne⟩

theorem cs_subset_create_var_found (L : Lib) (w : World) (sub : ConfigSubset) (X : CStr)
    (he : HashElem) (h : (cs_subset_lookup w sub (some X)).1 = some he) :
    (cs_subset_create_var L w sub (some X)).1 = some he ∧
    (cs_subset_create_var L w sub (some X)).2.mem = w.mem := by
  cases sub with
  | null => simp [cs_subset_lookup] at h
  | mk sname notify parent cs =>
    rw [cs_subset_create_var_mk, h]
    exact ⟨rfl, cs_subset_lookup_mem _ _ _⟩

/-- C2, amended: for a subset the program made, every subset below the root on
its chain being named with a key that fits in 255 bytes, a second
`cs_subset_create_var(sub, X)` right after the first returns what the first
returned (the same item or the same `NULL`) and leaves every config set as the
first call left it. -/
theorem create_var_idempotent (L : Lib) (w : World) (sub : ConfigSubset) (X : CStr)
    (hb : sub.built)
    (hn : ∀ i, anc (i + 1) sub ≠ .null →
      ∃ n, (anc i sub).name = some n ∧ (n ++ colon ++ X).length ≤ 255) :
    (cs_subset_create_var L (cs_subset_create_var L w sub (some X)).2 sub (some X)).1
      = (cs_subset_create_var L w sub (some X)).1 ∧
    (cs_subset_create_var L (cs_subset_create_var L w sub (some X)).2 sub (some X)).2.mem
      = (cs_subset_create_var L w sub (some X)).2.mem := by
  rcases first_found w sub X with hall | ⟨k, habs, hk⟩
  · obtain ⟨h1, h2⟩ := create_var_unresolved L X sub w hall
    obtain ⟨h3, h4⟩ := create_var_unresolved L X sub (cs_subset_create_var L w sub (some X)).2
      (fun i => by
        rw [cs_subset_lookup_congr _ w h2]
        exact hall i)
    exact ⟨by rw [h3, h1], h4⟩
  · have hknn : anc k sub ≠ .null := by
      intro h0
      rw [h0] at hk
      exact hk rfl
    have hnk : ∀ i, i < k → ∃ n, (anc i sub).name = some n ∧ (n ++ colon ++ X).length ≤ 255 :=
      fun i hi => hn i (fun h0 => hknn (anc_null_of_le sub (i + 1) k hi h0))
    have hcsall := built_cs sub hb k hknn
    rw [cs_subset_lookup_item_at, hcsall k (Nat.le_refl k)] at hk
    cases hr : sub.cs with
    | none =>
      rw [hr] at hk
      exact absurd rfl hk
    | some r =>
      rw [hr] at hk hcsall
      obtain ⟨he, w', hcv, hreg, _, _, _⟩ := create_var_chain L X r k sub w
        (fun i hi => (hnk i hi).imp fun n h => h.1)
        hcsall
        (built_keys_distinct sub hb X k hnk)
        (fun i hi => by
          have := habs i hi
          rw [cs_subset_lookup_item_at, hcsall i (Nat.le_of_lt hi)] at this
          exact this)
        (Option.isSome_iff_ne_none.mpr hk)
      rw [hcv]
      apply cs_subset_create_var_found
      rw [cs_subset_lookup_item_at, hr]
      exact hreg

/-- C2 at the sample world: creating `timeout` at `acct1:inbox` twice. -/
theorem create_var_idempotent_demo :
    (cs_subset_create_var demoLib
        (cs_subset_create_var demoLib demoWorld demoInbox (some (cstr "timeout"))).2
        demoInbox (some (cstr "timeout"))).1
      = (cs_subset_create_var demoLib demoWorld demoInbox (some (cstr "timeout"))).1 :=
  (create_var_idempotent demoLib demoWorld demoInbox (cstr "timeout") demoInbox_built
    (by
      intro i hi
      match i with
      | 0 => exact ⟨cstr "acct1:inbox", by decide, by decide⟩
      | 1 => exact ⟨cstr "acct1", by decide, by decide⟩
      | i + 2 =>
        exfalso
        apply hi
        show anc i .null = .null
        exact anc_null i)).1

set_option maxRecDepth 100000 in
/-- C2 as stated fails when scopes are cut: the subset `b` below a subset with
a 255-byte name has the scope of its parent, both named, below an unnamed root
holding `x`.  The first `cs_subset_create_var` for `b` registers the cut key
for the parent and returns `NULL`; the second finds that key and returns the
item of the parent. -/
theorem create_var_twice_truncated :
    longB.name = some longName ∧ longB.parent = longA ∧
    longA.name = some longName ∧ longA.parent = demoRoot ∧ demoRoot.parent = .null ∧
    (cs_subset_create_var demoLib longWorld longB (some (cstr "x"))).1 = none ∧
    (cs_subset_create_var demoLib
        (cs_subset_create_var demoLib longWorld longB (some (cstr "x"))).2
        longB (some (cstr "x"))).1
      = some (.mk 64 longName (some (.mk 0 (cstr "x") none))) := by
  decide

/-! ## Freeing a subset below a named parent (C6, C7) -/

/-- C6 fails on the code: `acct1:inbox`, below the named `acct1`, holds
`acct1:inbox:timeout`.  `cs_subset_free` composes the scope from the name of
the parent and the name of the subset, which already starts with it, and so
looks for `acct1:acct1:inbox:`: it asks for no removal and the item of the
subset stays registered. -/
theorem free_nested_keeps_own_items :
    demoInbox.name = some (cstr "acct1:inbox") ∧
    demoWorldInbox.keys (some 0)
      = [cstr "timeout", cstr "acct1:timeout", cstr "acct1:inbox:timeout"] ∧
    (cs_subset_free demoWorldInbox demoInbox).keys (some 0)
      = [cstr "timeout", cstr "acct1:timeout", cstr "acct1:inbox:timeout"] ∧
    (cs_subset_free demoWorldInbox demoInbox).calls
      = demoWorldInbox.calls ++ [.get_elem_list (some 0)] := by
  decide

/-- C7 fails on the code: freeing `acct1:inbox` removes
`acct1:acct1:inbox:timeout`, a key that does not start with `acct1:inbox:` and
belongs to a subset below `acct1:acct1`, a sibling of `acct1:inbox`. -/
theorem free_nested_removes_foreign_item :
    demoInbox.name = some (cstr "acct1:inbox") ∧ demoInbox.parent = demoAcct ∧
    demoTwin.name = some (cstr "acct1:acct1") ∧ demoTwin.parent = demoAcct ∧
    demoTwinInbox.name = some (cstr "acct1:acct1:inbox") ∧ demoTwinInbox.parent = demoTwin ∧
    demoWorldTwin.keys (some 0)
      = [cstr "timeout", cstr "acct1:timeout", cstr "acct1:acct1:timeout",
          cstr "acct1:acct1:inbox:timeout"] ∧
    (cs_subset_free demoWorldTwin demoInbox).keys (some 0)
      = [cstr "timeout", cstr "acct1:timeout", cstr "acct1:acct1:timeout"] ∧
    StoreCall.uninherit_variable (some 0) (cstr "acct1:acct1:inbox:timeout")
      ∈ (cs_subset_free demoWorldTwin demoInbox).calls ∧
    (cstr "acct1:inbox:").isPrefixOf (cstr "acct1:acct1:inbox:timeout") = false := by
  decide

/-! ## Setting by string (C9) -/

/-- C9 fails on the code: at the sample world the string set of `timeout`
returns status 0, which does not carry `CSR_SUC_NO_CHANGE`, and
`cs_subset_string_set` sends no notification, where `cs_subset_native_set`
sends one for the same subset and item. -/
theorem string_set_sends_nothing :
    Int.land (cs_subset_string_set demoLib demoWorld demoAcct (some he_timeout)
      (some (cstr "60"))).1 demoLib.CSR_SUC_NO_CHANGE = 0 ∧
    (cs_subset_string_set demoLib demoWorld demoAcct (some he_timeout) (some (cstr "60"))).2.sent
      = [] ∧
    (cs_subset_native_set demoLib demoWorld demoAcct (some he_timeout) 60).map
      (fun r => r.2.sent.length) = some 1 := by
  decide

/-! ## Return values for null arguments (C11) -/

/-- C11 fails on the code for `cs_subset_string_set`: with a `NULL` subset, or
a `NULL` item, it returns `INT_MIN`, which is not the status `CSR_ERR_CODE`
that `cs_subset_native_set`, `cs_subset_reset` and `cs_subset_string_get`
return for the same arguments. -/
theorem string_set_null_returns_int_min :
    (cs_subset_string_set demoLib demoWorld .null (some he_timeout) (some (cstr "60"))).1
      = INT_MIN ∧
    (cs_subset_string_set demoLib demoWorld demoAcct none (some (cstr "60"))).1 = INT_MIN ∧
    INT_MIN ≠ demoLib.CSR_ERR_CODE ∧
    (cs_subset_native_set demoLib demoWorld .null (some he_timeout) 60).map Prod.fst
      = some demoLib.CSR_ERR_CODE ∧
    (cs_subset_reset demoLib demoWorld .null (some he_timeout)).1 = demoLib.CSR_ERR_CODE ∧
    (cs_subset_string_get demoLib demoWorld .null (some he_timeout) []).1.1
      = demoLib.CSR_ERR_CODE := by
  decide

/-! ## Resetting an item (C16) -/

/-- C16: for a subset and an item, `cs_subset_reset` returns the status the
reset of the config set returns for the item, whatever it is, and sends no
notification: the one thing it does is that call. -/
theorem reset_passes_status (L : Lib) (w : World) (sname : Option CStr) (notify : NotifyPtr)
    (parent : ConfigSubset) (cs : Option CsPtr) (he : HashElem) :
    (cs_subset_reset L w (.mk sname notify parent cs) (some he)).1
      = (cs_he_reset L w cs he).1 ∧
    (cs_subset_reset L w (.mk sname notify parent cs) (some he)).1
      = (L.he_reset (w.deref cs) he).1 ∧
    (cs_subset_reset L w (.mk sname notify parent cs) (some he)).2.sent = w.sent ∧
    (cs_subset_reset L w (.mk sname notify parent cs) (some he)).2.calls
      = w.calls ++ [.he_reset cs he] := by
  refine ⟨rfl, rfl, ?_, ?_⟩
  · simp [cs_subset_reset, cs_he_reset]
  · simp [cs_subset_reset, cs_he_reset]

/-- C16 at the sample world: resetting `timeout` at `acct1` returns the status
0 of the config set and sends nothing. -/
theorem reset_passes_status_demo :
    (cs_subset_reset demoLib demoWorld demoAcct (some he_timeout)).1 = 0 ∧
    (cs_subset_reset demoLib demoWorld demoAcct (some he_timeout)).2.sent = [] := by
  have h := reset_passes_status demoLib demoWorld (some (cstr "acct1")) 2 demoRoot (some 0)
    he_timeout
  rw [← demoAcct_eq] at h
  exact ⟨h.2.1.trans (by decide), h.2.2.1.trans (by decide)⟩

/-! ## The base of an item (C20) -/

theorem get_base_step (L : Lib) (he p : HashElem) (h : he.type &&& L.DT_INHERITED ≠ 0)
    (hp : he.parent = some p) : get_base L he = get_base L p := by
  cases he with
  | mk type key parent =>
    have h2 : ¬ (type &&& L.DT_INHERITED = 0) := h
    have hp2 : parent = some p := hp
    subst hp2
    conv_lhs => rw [get_base]
    rw [if_neg h2]

theorem get_base_of_baseOf (L : Lib) (he b : HashElem) (h : BaseOf L he b) :
    get_base L he = some b := by
  induction h with
  | here he h0 => exact get_base_self L he h0
  | step he p b h0 hp _ ih => rw [get_base_step L he p h0 hp, ih]

theorem baseOf_not_inherited (L : Lib) (he b : HashElem) (h : BaseOf L he b) :
    b.type &&& L.DT_INHERITED = 0 := by
  induction h with
  | here he h0 => exact h0
  | step he p b _ _ _ ih => exact ih

theorem get_base_onChain (L : Lib) (he q : HashElem) (h : OnChain L he q) :
    get_base L q = get_base L he := by
  induction h with
  | self he => rfl
  | up he p q h0 hp _ ih => rw [ih, get_base_step L he p h0 hp]

/-- C20: `get_base` is a total function; on an item whose chain of
inheritance-parent links ends at an item `b` that is not flagged inherited it
returns `b` (and only then does it return an item); the item it returns does
not carry `DT_INHERITED`; an item that is not inherited is its own base;
`get_base` of the base is the base again; and every item on the chain of `he`
has the base of `he`. -/
theorem get_base_total (L : Lib) :
    (∀ he b, get_base L he = some b ↔ BaseOf L he b) ∧
    (∀ he b, get_base L he = some b → b.type &&& L.DT_INHERITED = 0) ∧
    (∀ he, he.type &&& L.DT_INHERITED = 0 → get_base L he = some he) ∧
    (∀ he b, get_base L he = some b → get_base L b = some b) ∧
    (∀ he q, OnChain L he q → get_base L q = get_base L he) := by
  refine ⟨fun he b => ⟨baseOf_of_get_base L he b, get_base_of_baseOf L he b⟩, ?_,
    get_base_self L, ?_, get_base_onChain L⟩
  · intro he b h
    exact baseOf_not_inherited L he b (baseOf_of_get_base L he b h)
  · intro he b h
    exact get_base_self L b (baseOf_not_inherited L he b (baseOf_of_get_base L he b h))

/-- C20 at the sample world: the base of `acct1:inbox:timeout`, two links away
from the root item, is the root item `timeout`, as is the base of the
`acct1:timeout` between them. -/
theorem get_base_total_demo :
    get_base demoLib
        (.mk 64 (cstr "acct1:inbox:timeout") (some (.mk 64 (cstr "acct1:timeout")
          (some he_timeout)))) = some he_timeout ∧
    get_base demoLib (.mk 64 (cstr "acct1:timeout") (some he_timeout))
      = get_base demoLib
        (.mk 64 (cstr "acct1:inbox:timeout") (some (.mk 64 (cstr "acct1:timeout")
          (some he_timeout)))) :=
  ⟨((get_base_total demoLib).1 _ _).mpr
      (BaseOf.step _ (.mk 64 (cstr "acct1:timeout") (some he_timeout)) _ (by decide) rfl
        (BaseOf.step _ he_timeout _ (by decide) rfl (BaseOf.here _ (by decide)))),
   (get_base_total demoLib).2.2.2.2 _ _
      (OnChain.up _ (.mk 64 (cstr "acct1:timeout") (some he_timeout)) _ (by decide) rfl
        (OnChain.self _))⟩

/-! ## A name that no scope defines (C12, C13) -/

theorem cs_subset_lookup_calls (w : World) (sname : Option CStr) (notify : NotifyPtr)
    (parent : ConfigSubset) (cs : Option CsPtr) (X : CStr) :
    (cs_subset_lookup w (.mk sname notify parent cs) (some X)).2.calls
      = w.calls ++ [.get_elem cs (lookup_scope sname X)] := by
  cases sname <;> rfl

/-- C12: when no subset on the parent chain of `sub` holds an item at its
qualified key for `X`, `cs_subset_create_var(sub, X)` returns `NULL`, the only
calls it makes to the config set are lookups (`cs_inherit_variable` is never
called), and every config set, and the list of sent notifications, is as
before. -/
theorem create_var_unresolved_quiet (L : Lib) (w : World) (sub : ConfigSubset) (X : CStr)
    (h : ∀ i, (cs_subset_lookup w (anc i sub) (some X)).1 = none) :
    (cs_subset_create_var L w sub (some X)).1 = none ∧
    (cs_subset_create_var L w sub (some X)).2.mem = w.mem ∧
    (cs_subset_create_var L w sub (some X)).2.sent = w.sent ∧
    ∃ added, (cs_subset_create_var L w sub (some X)).2.calls = w.calls ++ added ∧
      ∀ c ∈ added, c.is_get_elem = true ∧ c.is_inherit = false := by
  induction sub generalizing w with
  | null =>
    refine ⟨rfl, rfl, rfl, [], ?_, ?_⟩
    · simp [cs_subset_create_var]
    · intro c hc
      cases hc
  | mk sname notify parent cs ih =>
    have h0 := h 0
    simp only [anc] at h0
    have hmem := cs_subset_lookup_mem w (.mk sname notify parent cs) (some X)
    obtain ⟨ih1, ih2, ih3, added, ih4, ih5⟩ :=
      ih (cs_subset_lookup w (.mk sname notify parent cs) (some X)).2
        (fun i => by
          rw [cs_subset_lookup_congr _ w hmem]
          exact h (i + 1))
    rw [cs_subset_create_var_mk, h0]
    simp only [ih1]
    refine ⟨trivial, by rw [ih2, hmem], by rw [ih3, cs_subset_lookup_sent],
      StoreCall.get_elem cs (lookup_scope sname X) :: added, ?_, ?_⟩
    · rw [ih4, cs_subset_lookup_calls]
      simp
    · intro c hc
      rcases List.mem_cons.mp hc with rfl | hc
      · exact ⟨rfl, rfl⟩
      · exact ih5 c hc

/-- C12 at the sample world: `nosuch` is defined nowhere; creating it at
`acct1:inbox` returns `NULL` after three lookups. -/
theorem create_var_unresolved_quiet_demo :
    (cs_subset_create_var demoLib demoWorld demoInbox (some (cstr "nosuch"))).1 = none ∧
    ∃ added, (cs_subset_create_var demoLib demoWorld demoInbox (some (cstr "nosuch"))).2.calls
        = demoWorld.calls ++ added ∧
      ∀ c ∈ added, c.is_get_elem = true ∧ c.is_inherit = false := by
  obtain ⟨h1, _, _, h4⟩ := create_var_unresolved_quiet demoLib demoWorld demoInbox (cstr "nosuch")
    (by
      intro i
      match i with
      | 0 => decide
      | 1 => decide
      | 2 => decide
      | i + 3 =>
        have h : anc (i + 3) demoInbox = .null := by
          show anc i .null = .null
          exact anc_null i
        rw [h]
        rfl)
  exact ⟨h1, h4⟩

/-- C13 fails on the code: `nosuch` is defined nowhere, and
`cs_subset_native_set2` for it at `acct1` does return `CSR_ERR_CODE` without a
write or a notification, but `create_inheritance`, which does not test what
the call for the parent returned, asks the config set twice to create an
inherited item of a `NULL` parent item (first for the unnamed root, with a
`NULL` scope name).  `cs_subset_create_var` makes the two lookups only. -/
theorem native_set2_unresolved_still_creates :
    (cs_subset_native_set2 demoLib demoWorld demoAcct (some (cstr "nosuch")) 60).map
        (fun r => (r.1, r.2.calls, r.2.sent))
      = some (demoLib.CSR_ERR_CODE,
          [.get_elem (some 0) (cstr "acct1:nosuch"), .get_elem (some 0) (cstr "nosuch"),
           .inherit_variable (some 0) none (cstr "(null):nosuch"),
           .inherit_variable (some 0) none (cstr "acct1:nosuch")], []) ∧
    (cs_subset_create_var demoLib demoWorld demoAcct (some (cstr "nosuch"))).2.calls
      = [.get_elem (some 0) (cstr "acct1:nosuch"), .get_elem (some 0) (cstr "nosuch")] := by
  decide

/-! ## The two ways to ensure an item (C18) -/

theorem cs_inherit_variable_congr (L : Lib) (w1 w2 : World) (h : w1.mem = w2.mem)
    (cs : Option CsPtr) (parent : Option HashElem) (name : CStr) :
    (cs_inherit_variable L w1 cs parent name).1 = (cs_inherit_variable L w2 cs parent name).1 ∧
    (cs_inherit_variable L w1 cs parent name).2.mem
      = (cs_inherit_variable L w2 cs parent name).2.mem := by
  unfold cs_inherit_variable World.deref World.store
  cases cs with
  | none => simp [h]
  | some r =>
    cases parent with
    | none => simp [h]
    | some p =>
      simp only [Option.map_some', h]
      split <;> simp [h]

theorem cs_inherit_variable_null (L : Lib) (w : World) (cs : Option CsPtr) (name : CStr) :
    (cs_inherit_variable L w cs none name).1 = none ∧
    (cs_inherit_variable L w cs none name).2.mem = w.mem := by
  unfold cs_inherit_variable
  cases w.deref cs <;> exact ⟨rfl, rfl⟩

theorem create_inheritance_agrees (L : Lib) (X : CStr) : ∀ (sub : ConfigSubset) (w : World),
    (create_inheritance L w sub (some X)).1 = (cs_subset_create_var L w sub (some X)).1 ∧
    (create_inheritance L w sub (some X)).2.mem = (cs_subset_create_var L w sub (some X)).2.mem ∧
    ((cs_subset_create_var L w sub (some X)).1 ≠ none →
      create_inheritance L w sub (some X) = cs_subset_create_var L w sub (some X)) := by
  intro sub
  induction sub with
  | null => intro w; simp [create_inheritance, cs_subset_create_var]
  | mk sname notify parent cs ih =>
    intro w
    obtain ⟨ih1, ih2, ih3⟩ := ih (cs_subset_lookup w (.mk sname notify parent cs) (some X)).2
    rw [create_inheritance_mk, cs_subset_create_var_mk]
    cases h0 : (cs_subset_lookup w (.mk sname notify parent cs) (some X)).1 with
    | some he0 => exact ⟨rfl, rfl, fun _ => rfl⟩
    | none =>
      simp only
      cases hp : (cs_subset_create_var L
          (cs_subset_lookup w (.mk sname notify parent cs) (some X)).2 parent (some X)).1 with
      | none =>
        rw [hp] at ih1
        rw [ih1]
        simp only
        obtain ⟨hn1, hn2⟩ := cs_inherit_variable_null L
          (create_inheritance L (cs_subset_lookup w (.mk sname notify parent cs) (some X)).2
            parent (some X)).2 cs (snprintf 256 (fmt_s sname ++ colon ++ X))
        exact ⟨hn1, by rw [hn2, ih2], fun h => absurd rfl h⟩
      | some hp0 =>
        have heq := ih3 (by rw [hp]; exact Option.some_ne_none hp0)
        rw [heq, hp]
        exact ⟨rfl, rfl, fun _ => rfl⟩

/-- C18: `create_inheritance(sub, X)` and `cs_subset_create_var(sub, X)` return
the same item and leave the same config sets, for every subset and name; when
they return an item (as they do for a resolvable name), they leave the same
world altogether, having made the same calls. -/
theorem create_inheritance_refines (L : Lib) (w : World) (sub : ConfigSubset) (X : CStr) :
    (create_inheritance L w sub (some X)).1 = (cs_subset_create_var L w sub (some X)).1 ∧
    (create_inheritance L w sub (some X)).2.mem = (cs_subset_create_var L w sub (some X)).2.mem ∧
    ((cs_subset_create_var L w sub (some X)).1 ≠ none →
      create_inheritance L w sub (some X) = cs_subset_create_var L w sub (some X)) :=
  create_inheritance_agrees L X sub w

/-- C18 at the sample world: both ways to ensure `timeout` at `acct1:inbox`
give the item `acct1:inbox:timeout` and the same calls. -/
theorem create_inheritance_refines_demo :
    (create_inheritance demoLib demoWorld demoInbox (some (cstr "timeout"))).1
      = some (.mk 64 (cstr "acct1:inbox:timeout")
          (some (.mk 64 (cstr "acct1:timeout") (some he_timeout)))) ∧
    create_inheritance demoLib demoWorld demoInbox (some (cstr "timeout"))
      = cs_subset_create_var demoLib demoWorld demoInbox (some (cstr "timeout")) :=
  ⟨((create_inheritance_refines demoLib demoWorld demoInbox (cstr "timeout")).1).trans
      (by decide),
   (create_inheritance_refines demoLib demoWorld demoInbox (cstr "timeout")).2.2 (by decide)⟩

/-! ## What `cs_subset_create_var` changes (C19) -/

/-- A call of `cs_inherit_variable` puts at most one item, last, into the
config set it is given: flagged inherited, under the name asked for. -/
theorem cs_inherit_variable_grows (L : Lib) (w : World) (cs : Option CsPtr)
    (parent : Option HashElem) (name : CStr) (c : CsPtr) :
    ∃ added, ((cs_inherit_variable L w cs parent name).2.mem c).hash = (w.mem c).hash ++ added ∧
      ((cs_inherit_variable L w cs parent name).2.mem c).vars = (w.mem c).vars ∧
      ∀ e ∈ added, e.type = L.DT_INHERITED ∧ e.key = name ∧ cs = some c ∧ parent ≠ none := by
  unfold cs_inherit_variable World.deref World.store
  cases cs with
  | none => exact ⟨[], by simp, rfl, fun e he => by cases he⟩
  | some r =>
    cases parent with
    | none => exact ⟨[], by simp, rfl, fun e he => by cases he⟩
    | some p =>
      simp only [Option.map_some']
      split
      · exact ⟨[], by simp, rfl, fun e he => by cases he⟩
      · by_cases hc : c = r
        · subst hc
          refine ⟨[HashElem.mk L.DT_INHERITED name (some p)], by simp, by simp, ?_⟩
          intro e he
          simp only [List.mem_singleton] at he
          subst he
          exact ⟨rfl, rfl, rfl, Option.some_ne_none p⟩
        · refine ⟨[], ?_, ?_, fun e he => by cases he⟩
          · simp [Function.update_noteq hc]
          · simp [Function.update_noteq hc]

/-- The config sets only grow under `cs_subset_create_var`, by items it creates
for subsets on the parent chain that have a parent. -/
theorem create_var_grows (L : Lib) (X : CStr) (c : CsPtr) : ∀ (sub : ConfigSubset) (w : World),
    ∃ added, ((cs_subset_create_var L w sub (some X)).2.mem c).hash = (w.mem c).hash ++ added ∧
      ((cs_subset_create_var L w sub (some X)).2.mem c).vars = (w.mem c).vars ∧
      ∀ e ∈ added, e.type = L.DT_INHERITED ∧
        ∃ i, anc (i + 1) sub ≠ .null ∧ (anc i sub).cs = some c ∧
          e.key = snprintf 256 (fmt_s (anc i sub).name ++ colon ++ X) := by
  intro sub
  induction sub with
  | null =>
    intro w
    exact ⟨[], by simp [cs_subset_create_var], by simp [cs_subset_create_var],
      fun e he => by cases he⟩
  | mk sname notify parent cs ih =>
    intro w
    have hmem := cs_subset_lookup_mem w (.mk sname notify parent cs) (some X)
    obtain ⟨addp, ihh, ihv, ihk⟩ :=
      ih (cs_subset_lookup w (.mk sname notify parent cs) (some X)).2
    rw [hmem] at ihh ihv
    have hup : ∀ e ∈ addp, e.type = L.DT_INHERITED ∧
        ∃ i, anc (i + 1) (.mk sname notify parent cs) ≠ .null ∧
          (anc i (.mk sname notify parent cs)).cs = some c ∧
          e.key = snprintf 256 (fmt_s (anc i (.mk sname notify parent cs)).name ++ colon ++ X) := by
      intro e he
      obtain ⟨ht, i, h1, h2, h3⟩ := ihk e he
      exact ⟨ht, i + 1, h1, h2, h3⟩
    rw [cs_subset_create_var_mk]
    cases h0 : (cs_subset_lookup w (.mk sname notify parent cs) (some X)).1 with
    | some he0 =>
      exact ⟨[], by simp [hmem], by simp [hmem], fun e he => by cases he⟩
    | none =>
      simp only
      cases hp : (cs_subset_create_var L
          (cs_subset_lookup w (.mk sname notify parent cs) (some X)).2 parent (some X)).1 with
      | none => exact ⟨addp, ihh, ihv, hup⟩
      | some hp0 =>
        simp only
        have hpn : parent ≠ .null := by
          intro hnull
          rw [hnull] at hp
          simp [cs_subset_create_var] at hp
        obtain ⟨addi, hih, hiv, hik⟩ := cs_inherit_variable_grows L
          (cs_subset_create_var L
            (cs_subset_lookup w (.mk sname notify parent cs) (some X)).2 parent (some X)).2
          cs (some hp0) (snprintf 256 (fmt_s sname ++ colon ++ X)) c
        refine ⟨addp ++ addi, by rw [hih, ihh, List.append_assoc], by rw [hiv, ihv], ?_⟩
        intro e he
        rcases List.mem_append.mp he with he | he
        · exact hup e he
        · obtain ⟨ht, hk, hcs, _⟩ := hik e he
          exact ⟨ht, 0, hpn, hcs, hk⟩

/-- C19, amended: `cs_subset_create_var` only adds to the config sets.  Every
item registered before the call is registered at the same key afterwards, the
same item with its flags and parent link, and the value slots are untouched;
every item the call adds is flagged inherited and belongs to a subset `T` of
the parent chain of `sub` that has a parent, its key being, when `T` is named,
the first 255 bytes of `T->name + ":" + X`. -/
theorem create_var_only_adds (L : Lib) (w : World) (sub : ConfigSubset) (X : CStr) (c : CsPtr) :
    ∃ added, ((cs_subset_create_var L w sub (some X)).2.mem c).hash = (w.mem c).hash ++ added ∧
      ((cs_subset_create_var L w sub (some X)).2.mem c).vars = (w.mem c).vars ∧
      (∀ K e, w.item_at (some c) K = some e →
        (cs_subset_create_var L w sub (some X)).2.item_at (some c) K = some e) ∧
      ∀ e ∈ added, e.type = L.DT_INHERITED ∧
        ∃ i, anc (i + 1) sub ≠ .null ∧ (anc i sub).cs = some c ∧
          ∀ n, (anc i sub).name = some n → e.key = (n ++ colon ++ X).take 255 := by
  obtain ⟨added, hh, hv, hk⟩ := create_var_grows L X c sub w
  refine ⟨added, hh, hv, ?_, ?_⟩
  · intro K e h
    rw [item_at_eq] at h ⊢
    rw [hh, List.find?_append, h]
    rfl
  · intro e he
    obtain ⟨ht, i, h1, h2, h3⟩ := hk e he
    refine ⟨ht, i, h1, h2, ?_⟩
    intro n hn
    rw [h3, hn]
    rfl

/-- C19 at the sample world: creating `timeout` at `acct1:inbox` keeps the
root item and adds `acct1:timeout` and `acct1:inbox:timeout`. -/
theorem create_var_only_adds_demo :
    (cs_subset_create_var demoLib demoWorld demoInbox (some (cstr "timeout"))).2.item_at
        (some 0) (cstr "timeout") = some he_timeout ∧
    (cs_subset_create_var demoLib demoWorld demoInbox (some (cstr "timeout"))).2.keys (some 0)
      = [cstr "timeout", cstr "acct1:timeout", cstr "acct1:inbox:timeout"] := by
  obtain ⟨added, _, _, hp, _⟩ :=
    create_var_only_adds demoLib demoWorld demoInbox (cstr "timeout") 0
  exact ⟨hp (cstr "timeout") he_timeout (by decide), by decide⟩

set_option maxRecDepth 100000 in
/-- C19 as stated fails when a key is cut: the subset with the 255-byte name,
below the unnamed root holding `x`, gets for `x` an item whose key is the name
of the subset alone, the first 255 bytes of `name + ":x"`: it is not
`T->name + ":" + X` for the one named subset on the chain. -/
theorem create_var_adds_cut_key :
    longA.name = some longName ∧ longA.parent = demoRoot ∧
    demoRoot.name = none ∧ demoRoot.parent = .null ∧
    longWorld.keys (some 0) = [cstr "x"] ∧
    (cs_subset_create_var demoLib longWorld longA (some (cstr "x"))).2.keys (some 0)
      = [cstr "x", longName] ∧
    longName ≠ longName ++ colon ++ cstr "x" := by
  decide

/-! ## Cutting scopes and keys (C17) -/

theorem snprintf_length (l : CStr) : (snprintf 256 l).length = min 255 l.length := by
  simp [snprintf]

/-- C17: scopes and keys are cut at 255 bytes, whatever the lengths.  The scope
`cs_subset_new` stores is the first 255 bytes of `parent + ":" + name`, or of
`name` under an unnamed or absent parent; the key `cs_subset_lookup` asks the
config set for is the first 255 bytes of `scope + ":" + item`, or of `item` for
an unnamed subset; the key `cs_subset_create_var` registers for a named subset
is the first 255 bytes of `scope + ":" + item`.  A text cut to 255 bytes has
`min 255 length` bytes, all of it when it fits.  None of the functions has a
case for a text too long: each returns for every length. -/
theorem composition_cuts_at_255 (L : Lib) (w : World) :
    (∀ pname n P np, P.name = some pname →
      (cs_subset_new w (some n) P np).1.name = some ((pname ++ colon ++ n).take 255)) ∧
    (∀ n P np, P.name = none → (cs_subset_new w (some n) P np).1.name = some (n.take 255)) ∧
    (∀ n notify parent cs X,
      (cs_subset_lookup w (.mk (some n) notify parent cs) (some X)).2.calls
        = w.calls ++ [.get_elem cs ((n ++ colon ++ X).take 255)]) ∧
    (∀ notify parent cs X,
      (cs_subset_lookup w (.mk none notify parent cs) (some X)).2.calls
        = w.calls ++ [.get_elem cs (X.take 255)]) ∧
    (∀ n notify parent cs X hp,
      (cs_subset_lookup w (.mk (some n) notify parent cs) (some X)).1 = none →
      (cs_subset_create_var L (cs_subset_lookup w (.mk (some n) notify parent cs) (some X)).2
        parent (some X)).1 = some hp →
      cs_subset_create_var L w (.mk (some n) notify parent cs) (some X)
        = cs_inherit_variable L
            (cs_subset_create_var L (cs_subset_lookup w (.mk (some n) notify parent cs) (some X)).2
              parent (some X)).2 cs (some hp) ((n ++ colon ++ X).take 255)) ∧
    (∀ l : CStr, (snprintf 256 l).length = min 255 l.length ∧ (snprintf 256 l).length ≤ 255 ∧
      snprintf 256 l = l.take (min 255 l.length) ∧ (l.length ≤ 255 → snprintf 256 l = l)) ∧
    (∀ l : CStr, (mutt_str_strfcpy l 256).length = min 255 l.length ∧
      (mutt_str_strfcpy l 256).length ≤ 255 ∧
      mutt_str_strfcpy l 256 = l.take (min 255 l.length) ∧
      (l.length ≤ 255 → mutt_str_strfcpy l 256 = l)) := by
  refine ⟨?_, ?_, ?_, ?_, ?_, ?_, ?_⟩
  · intro pname n P np hP
    cases P with
    | null => cases hP
    | mk pn pnotify pp pcs =>
      have : pn = some pname := hP
      subst this
      rfl
  · intro n P np hP
    cases P with
    | null => rfl
    | mk pn pnotify pp pcs =>
      have : pn = none := hP
      subst this
      rfl
  · intro n notify parent cs X
    rfl
  · intro notify parent cs X
    rfl
  · intro n notify parent cs X hp h0 h1
    rw [cs_subset_create_var_mk, h0]
    simp only [h1]
    rfl
  · intro l
    have hlen : (snprintf 256 l).length = min 255 l.length := snprintf_length l
    refine ⟨hlen, by rw [hlen]; exact Nat.min_le_left _ _, ?_, ?_⟩
    · simp only [snprintf]
      rcases Nat.le_total 255 l.length with h | h
      · rw [Nat.min_eq_left h]
      · rw [Nat.min_eq_right h, List.take_of_length_le h, List.take_of_length_le (Nat.le_refl _)]
    · intro h
      exact List.take_of_length_le (by simpa using h)
  · intro l
    have hlen : (mutt_str_strfcpy l 256).length = min 255 l.length := by
      simp [mutt_str_strfcpy]
    refine ⟨hlen, by rw [hlen]; exact Nat.min_le_left _ _, ?_, ?_⟩
    · simp only [mutt_str_strfcpy]
      rcases Nat.le_total 255 l.length with h | h
      · rw [Nat.min_eq_left h]
      · rw [Nat.min_eq_right h, List.take_of_length_le h, List.take_of_length_le (Nat.le_refl _)]
    · intro h
      exact List.take_of_length_le (by simpa using h)

set_option maxRecDepth 100000 in
/-- C17 at a long name: below the subset whose scope has 255 bytes, the scope
of the subset `b` is cut to those 255 bytes. -/
theorem composition_cuts_at_255_demo :
    (cs_subset_new longWorld1 (some (cstr "b")) longA (some 2)).1.name
      = some ((longName ++ colon ++ cstr "b").take 255) ∧
    ((longName ++ colon ++ cstr "b").take 255).length = 255 :=
  ⟨(composition_cuts_at_255 demoLib longWorld1).1 longName (cstr "b") longA (some 2) (by decide),
   by decide⟩

/-! ## Freeing a subset below an unnamed parent (C15) -/

theorem startswith_iff (K scope : CStr) (h : scope ≠ []) :
    mutt_str_startswith K scope ≠ 0 ↔ scope.isPrefixOf K = true := by
  unfold mutt_str_startswith
  cases K with
  | nil =>
    cases scope with
    | nil => exact absurd rfl h
    | cons a t => simp [List.isPrefixOf]
  | cons b u =>
    have hlen : scope.length ≠ 0 := fun h0 => h (List.length_eq_zero.mp h0)
    by_cases hp : scope.isPrefixOf (b :: u) = true
    · simp [h, hp, hlen]
    · simp [h, hp]

theorem cs_uninherit_variable_fields (w : World) (cs : Option CsPtr) (K : CStr) :
    (cs_uninherit_variable w cs K).calls = w.calls ++ [.uninherit_variable cs K] ∧
    (∀ c, ((cs_uninherit_variable w cs K).mem c).hash
      = if cs = some c then (w.mem c).hash.filter (fun e => e.key ≠ K) else (w.mem c).hash) := by
  unfold cs_uninherit_variable World.deref World.store
  cases cs with
  | none => exact ⟨rfl, fun c => by simp⟩
  | some r =>
    refine ⟨rfl, fun c => ?_⟩
    simp only [Option.map_some', Option.some.injEq]
    by_cases hc : c = r
    · subst hc
      simp
    · have hrc : ¬ r = c := fun h => hc h.symm
      simp [Function.update_noteq hc, hrc]

/-- The loop of `cs_subset_free`: one removal is asked for each item of the
list whose key starts with the scope, in order, and an item stays registered
unless its key is one of those. -/
theorem free_loop (cs : Option CsPtr) (scope : CStr) : ∀ (l : List HashElem) (w0 : World),
    (l.foldl
        (fun w he =>
          if mutt_str_startswith he.key scope ≠ 0 then cs_uninherit_variable w cs he.key else w)
        w0).calls
      = w0.calls ++ (l.filter (fun he => mutt_str_startswith he.key scope ≠ 0)).map
          (fun he => StoreCall.uninherit_variable cs he.key) ∧
    ∀ c, ((l.foldl
        (fun w he =>
          if mutt_str_startswith he.key scope ≠ 0 then cs_uninherit_variable w cs he.key else w)
        w0).mem c).hash
      = if cs = some c then
          (w0.mem c).hash.filter (fun e =>
            l.all (fun he => decide (¬ mutt_str_startswith he.key scope ≠ 0) ||
              decide (e.key ≠ he.key)))
        else (w0.mem c).hash := by
  intro l
  induction l with
  | nil =>
    intro w0
    refine ⟨by simp, fun c => ?_⟩
    split <;> simp
  | cons he t ih =>
    intro w0
    simp only [List.foldl_cons]
    by_cases hp : mutt_str_startswith he.key scope ≠ 0
    · rw [if_pos hp]
      obtain ⟨ih1, ih2⟩ := ih (cs_uninherit_variable w0 cs he.key)
      obtain ⟨hu1, hu2⟩ := cs_uninherit_variable_fields w0 cs he.key
      refine ⟨?_, fun c => ?_⟩
      · rw [ih1, hu1, List.filter_cons_of_pos (by simpa using hp)]
        simp
      · rw [ih2 c, hu2 c]
        by_cases hc : cs = some c
        · rw [if_pos hc, if_pos hc, if_pos hc, List.filter_filter]
          apply List.filter_congr
          intro e _
          have hd : decide (¬ mutt_str_startswith he.key scope ≠ 0) = false :=
            decide_eq_false (not_not.mpr hp)
          simp only [List.all_cons]
          rw [hd, Bool.false_or, Bool.and_comm]
        · rw [if_neg hc, if_neg hc, if_neg hc]
    · rw [if_neg hp]
      obtain ⟨ih1, ih2⟩ := ih w0
      refine ⟨?_, fun c => ?_⟩
      · rw [ih1, List.filter_cons_of_neg (by simpa using hp)]
      · rw [ih2 c]
        by_cases hc : cs = some c
        · rw [if_pos hc, if_pos hc]
          apply List.filter_congr
          intro e _
          simp only [List.all_cons, hp, not_false_eq_true, decide_True, Bool.true_or,
            Bool.true_and]
        · rw [if_neg hc, if_neg hc]

theorem cs_subset_free_unnamed_parent (w : World) (N : CStr) (notify : NotifyPtr)
    (parent : ConfigSubset) (cs : Option CsPtr) (hpar : parent.name = none) :
    cs_subset_free w (.mk (some N) notify parent cs)
      = notify_free
          ((get_elem_list w cs).1.foldl
            (fun w he =>
              if mutt_str_startswith he.key (snprintf 256 (N ++ colon)) ≠ 0 then
                cs_uninherit_variable w cs he.key
              else w)
            (get_elem_list w cs).2) notify := by
  cases parent with
  | null => rfl
  | mk pn pnotify pp pcs =>
    have : pn = none := hpar
    subst this
    rfl

theorem keys_eq (w : World) (r : CsPtr) : w.keys (some r) = (w.mem r).hash.map HashElem.key :=
  rfl

/-- Among the items of a list, the keys that none of the removals asked for
hits are those that do not start with the scope. -/
theorem free_loop_keeps (scope : CStr) (hs : scope ≠ []) (l : List HashElem) (e : HashElem)
    (he : e ∈ l) :
    l.all (fun x => decide (¬ mutt_str_startswith x.key scope ≠ 0) || decide (e.key ≠ x.key))
      = !scope.isPrefixOf e.key := by
  rw [Bool.eq_iff_iff]
  simp only [List.all_eq_true, Bool.or_eq_true, decide_eq_true_eq, Bool.not_eq_true',
    ← Bool.not_eq_true]
  rw [← startswith_iff e.key scope hs]
  constructor
  · intro h hp
    rcases h e he with h1 | h1
    · exact h1 hp
    · exact h1 rfl
  · intro h x _
    by_cases hx : mutt_str_startswith x.key scope ≠ 0
    · right
      intro hk
      rw [hk] at h
      exact h hx
    · left
      exact hx

/-- C15: for a subset named `N` whose parent is absent or unnamed, `N + ":"`
fitting in 255 bytes, `cs_subset_free` takes one snapshot of the config set and
asks for the removal of exactly the keys of the snapshot that start with
`N + ":"`, in order, and of no other key; afterwards the config set holds
exactly the keys that do not start with `N + ":"`.  For a subset without a
name (the root) it makes no call to the config set and leaves every config set
as it is. -/
theorem free_direct_child (w : World) (N : CStr) (notify : NotifyPtr) (parent : ConfigSubset)
    (cs : Option CsPtr) (hpar : parent.name = none) (hfit : (N ++ colon).length ≤ 255) :
    (cs_subset_free w (.mk (some N) notify parent cs)).calls
      = w.calls ++ [.get_elem_list cs]
        ++ ((w.keys cs).filter (fun K => (N ++ colon).isPrefixOf K)).map
            (fun K => StoreCall.uninherit_variable cs K) ∧
    (cs_subset_free w (.mk (some N) notify parent cs)).keys cs
      = (w.keys cs).filter (fun K => !(N ++ colon).isPrefixOf K) ∧
    (∀ sub, sub.name = none →
      (cs_subset_free w sub).calls = w.calls ∧ (cs_subset_free w sub).mem = w.mem) := by
  have hscope : snprintf 256 (N ++ colon) = N ++ colon :=
    List.take_of_length_le (by simpa using hfit)
  have hne : N ++ colon ≠ [] := by simp [colon]
  obtain ⟨hc, hm⟩ := free_loop cs (N ++ colon) (get_elem_list w cs).1 (get_elem_list w cs).2
  rw [cs_subset_free_unnamed_parent w N notify parent cs hpar, hscope]
  refine ⟨?_, ?_, ?_⟩
  · show (List.foldl _ (get_elem_list w cs).2 (get_elem_list w cs).1).calls = _
    rw [hc]
    have hfilter : (get_elem_list w cs).1.filter
          (fun he => decide (mutt_str_startswith he.key (N ++ colon) ≠ 0))
        = (get_elem_list w cs).1.filter (fun he => (N ++ colon).isPrefixOf he.key) := by
      apply List.filter_congr
      intro e _
      rw [Bool.eq_iff_iff, decide_eq_true_eq]
      exact startswith_iff e.key (N ++ colon) hne
    rw [hfilter]
    simp only [World.keys, List.filter_map, List.map_map]
    rfl
  · cases cs with
    | none => rfl
    | some r =>
      show ((List.foldl _ (get_elem_list w (some r)).2 (get_elem_list w (some r)).1).mem r).hash.map
        HashElem.key = _
      rw [hm r, if_pos rfl, keys_eq, List.filter_map]
      congr 1
      apply List.filter_congr
      intro e he
      exact free_loop_keeps (N ++ colon) hne _ e he
  · intro sub hsub
    cases sub with
    | null => exact ⟨rfl, rfl⟩
    | mk sname snotify sparent scs =>
      have : sname = none := hsub
      subst this
      exact ⟨rfl, rfl⟩

/-- C15 at the sample world, after `timeout` was created at `acct1:inbox`:
freeing `acct1` asks for the removal of `acct1:timeout` and
`acct1:inbox:timeout` and leaves the `timeout` of the root. -/
theorem free_direct_child_demo :
    (cs_subset_free demoWorldInbox demoAcct).calls
      = demoWorldInbox.calls ++ [.get_elem_list (some 0),
          .uninherit_variable (some 0) (cstr "acct1:timeout"),
          .uninherit_variable (some 0) (cstr "acct1:inbox:timeout")] ∧
    (cs_subset_free demoWorldInbox demoAcct).keys (some 0) = [cstr "timeout"] := by
  have h := free_direct_child demoWorldInbox (cstr "acct1") 2 demoRoot (some 0) rfl (by decide)
  rw [← demoAcct_eq] at h
  exact ⟨h.1.trans (by decide), h.2.1.trans (by decide)⟩

/-! ## The target of the by-name setter (C14) -/

end Subset
